import Mathlib

/-!
Verification development for the DWH-Helper ETL service.

The definitions below are a shallow embedding of the Python source:
  * `app/db/schemas.py`      — the pydantic models (as Lean structures plus
    validation functions modelling pydantic construction);
  * `app/db/repository.py`   — SQL text construction, column counts and the
    dynamic chunking of `insert_batch`;
  * `app/etl/transformer.py` — `transform_single_record` and its helpers;
  * `app/etl/orchestrator.py`— `compare_changeable`, `flush`, `process_day`
    and `process_source`.

Python values are modelled by the inductive type `PyVal`; Python dicts by
association lists (first binding wins, assignment updates in place); machine
integers are unbounded `Int` exactly as in Python.  An uncaught Python
exception is modelled by an `Option`-valued result being `none`.  External
collaborators (UUID parsing, ISO-8601 parsing, regex search, JSON decoding,
database responses) are parameters of the embedded functions, so every
theorem quantifies over their behaviour.
-/

set_option maxHeartbeats 1000000

namespace DwhHelper

/-- Model of a Python runtime value as it appears in the ETL data path. -/
inductive PyVal where
  | vNone
  | vStr (s : String)
  | vInt (n : Int)
  | vBool (b : Bool)
  | vUuid (u : String)
  | vDatetime (t : Int)
  | vDict (d : List (String × PyVal))

open PyVal

mutual

/-- Python `==` on the values above.  The only cross-type equality Python
grants here is `bool == int` (True == 1, False == 0); dicts compare
structurally (an approximation: Python dict equality is order-insensitive,
but the embedding never compares dicts with differently ordered keys). -/
def pyEq : PyVal → PyVal → Bool
  | vNone, vNone => true
  | vStr a, vStr b => a == b
  | vInt a, vInt b => a == b
  | vBool a, vBool b => a == b
  | vBool a, vInt b => (if a then (1 : Int) else 0) == b
  | vInt a, vBool b => a == (if b then (1 : Int) else 0)
  | vUuid a, vUuid b => a == b
  | vDatetime a, vDatetime b => a == b
  | vDict a, vDict b => pyEqRow a b
  | _, _ => false

/-- Pointwise Python `==` of two dicts given as binding lists. -/
def pyEqRow : List (String × PyVal) → List (String × PyVal) → Bool
  | [], [] => true
  | (k1, v1) :: t1, (k2, v2) :: t2 => k1 == k2 && pyEq v1 v2 && pyEqRow t1 t2
  | _, _ => false

end

/-- A Python dict, as the ETL code uses it: string keys, `PyVal` values. -/
abbrev Row := List (String × PyVal)

/-- Python `d.get(k)` (with default `None` handled by callers): first binding
for the key, if any. -/
def dictGet (d : Row) (k : String) : Option PyVal :=
  (d.find? (fun p => p.1 == k)).map Prod.snd

/-- Python `d.get(k, None)`. -/
def dictGetD (d : Row) (k : String) : PyVal :=
  (dictGet d k).getD vNone

/-- Python `d[k] = v`: replace the binding if present, append otherwise. -/
def dictSet (d : Row) (k : String) (v : PyVal) : Row :=
  if d.any (fun p => p.1 == k) then
    d.map (fun p => if p.1 == k then (k, v) else p)
  else
    d ++ [(k, v)]

/-- Digit run of a Python integer literal (structural, so that concrete
inputs evaluate inside the kernel). -/
def digitsVal : List Char → Nat → Option Nat
  | [], acc => some acc
  | c :: rest, acc =>
      if c.isDigit then digitsVal rest (acc * 10 + (c.toNat - 48)) else none

/-- Python `int(str)`: optional surrounding whitespace, optional sign, a
non-empty digit run (digit-group underscores are not modelled). -/
def strToInt : String → Option Int := fun s =>
  let chars :=
    ((s.data.dropWhile Char.isWhitespace).reverse.dropWhile
      Char.isWhitespace).reverse
  match chars with
  | [] => none
  | '-' :: ds =>
      if ds.isEmpty then none else (digitsVal ds 0).map (fun n => -(n : Int))
  | '+' :: ds =>
      if ds.isEmpty then none else (digitsVal ds 0).map (fun n => (n : Int))
  | ds => (digitsVal ds 0).map (fun n => (n : Int))

/-- Python `str.strip()`. -/
def pyStrip (s : String) : String :=
  ⟨((s.data.dropWhile Char.isWhitespace).reverse.dropWhile
    Char.isWhitespace).reverse⟩

/-- Python `str.replace(c, rep)` for a one-character pattern (the source
only replaces `"Z"` and `"\""`), all occurrences. -/
def replaceCharStr (c : Char) (rep : String) (s : String) : String :=
  ⟨go s.data⟩
where
  go : List Char → List Char
    | [] => []
    | a :: rest => if a = c then rep.data ++ go rest else a :: go rest

/-- Python `str.lower()` (ASCII, which covers the vocabularies in play). -/
def pyToLower (s : String) : String :=
  ⟨s.data.map Char.toLower⟩

/-- Python `int(v)`.  Succeeds on ints, bools and integer-literal strings;
everything else raises `ValueError`/`TypeError`, modelled by `none`. -/
def pyInt : PyVal → Option Int
  | vInt n => some n
  | vBool b => some (if b then 1 else 0)
  | vStr s => strToInt s
  | _ => none

/-- Python `str(v)`, only as far as the error messages need it. -/
def pyStr : PyVal → String
  | vNone => "None"
  | vStr s => s
  | vInt n => toString n
  | vBool b => if b then "True" else "False"
  | vUuid u => u
  | vDatetime t => toString t
  | vDict _ => "<dict>"

/-- One transformation error, `{key, value, reason}` as built by
`transform_single_record` (`app/etl/transformer.py`). -/
structure TError where
  key : String
  value : PyVal
  reason : String

/-! ### The pydantic models of `app/db/schemas.py` -/

/-- The `PermanentUserProperties` of `app/db/schemas.py` (validated form). -/
structure PermanentUserProperties where
  ehr_id : Int
  first_login_at : Int
  gender : Option String := none
  cohort_day : Option Int := none
  cohort_week : Option Int := none
  cohort_month : Option Int := none
  registered_via_app : Option Bool := none
  source : Option String := none
  deriving DecidableEq, Repr

/-- The `ChangeableUserProperties` of `app/db/schemas.py` (validated form),
fields in declaration order. -/
structure ChangeableUserProperties where
  ehr_id : Option Int := none
  uuid : String
  event_time : Int
  language : Option String := none
  age : Option Int := none
  app_city : Option String := none
  push_permission : Option Bool := none
  location_permission : Option Bool := none
  authorization_status : Option Bool := none
  telemed_files_sent : Option Int := none
  appointments_cancelled : Option Int := none
  telemed_files_received : Option Int := none
  telemed_messages_received : Option Int := none
  telemed_messages_sent : Option Int := none
  telemed_consultations_resumed : Option Int := none
  appointments_booked : Option Int := none
  session_id : Option Int := none
  start_version : Option String := none
  deriving DecidableEq, Repr

namespace ChangeableUserProperties

/-- The `ChangeableUserProperties.model_fields`, in declaration order. -/
def model_fields : List String :=
  ["ehr_id", "uuid", "event_time", "language", "age", "app_city",
   "push_permission", "location_permission", "authorization_status",
   "telemed_files_sent", "appointments_cancelled", "telemed_files_received",
   "telemed_messages_received", "telemed_messages_sent",
   "telemed_consultations_resumed", "appointments_booked", "session_id",
   "start_version"]

/-- Back to Python values, for `getattr` and `model_dump`. -/
def optIntVal : Option Int → PyVal
  | none => vNone
  | some n => vInt n

def optStrVal : Option String → PyVal
  | none => vNone
  | some s => vStr s

def optBoolVal : Option Bool → PyVal
  | none => vNone
  | some b => vBool b

/-- Python `getattr(rec, f)` for the model fields (unknown field names are
never requested by the code; they return `None` here). -/
def getattr (r : ChangeableUserProperties) : String → PyVal
  | "ehr_id" => optIntVal r.ehr_id
  | "uuid" => vUuid r.uuid
  | "event_time" => vDatetime r.event_time
  | "language" => optStrVal r.language
  | "age" => optIntVal r.age
  | "app_city" => optStrVal r.app_city
  | "push_permission" => optBoolVal r.push_permission
  | "location_permission" => optBoolVal r.location_permission
  | "authorization_status" => optBoolVal r.authorization_status
  | "telemed_files_sent" => optIntVal r.telemed_files_sent
  | "appointments_cancelled" => optIntVal r.appointments_cancelled
  | "telemed_files_received" => optIntVal r.telemed_files_received
  | "telemed_messages_received" => optIntVal r.telemed_messages_received
  | "telemed_messages_sent" => optIntVal r.telemed_messages_sent
  | "telemed_consultations_resumed" => optIntVal r.telemed_consultations_resumed
  | "appointments_booked" => optIntVal r.appointments_booked
  | "session_id" => optIntVal r.session_id
  | "start_version" => optStrVal r.start_version
  | _ => vNone

/-- The `rec.model_dump()`: the dict of all fields as Python values. -/
def model_dump (r : ChangeableUserProperties) : Row :=
  model_fields.map (fun f => (f, getattr r f))

end ChangeableUserProperties

/-- The `compare_changeable` of `app/etl/orchestrator.py`: `True` when `old` is
`None`, otherwise whether any model field outside
`{uuid, event_time, session_id}` differs. -/
def compare_changeable (old : Option ChangeableUserProperties)
    (new : ChangeableUserProperties) : Bool :=
  match old with
  | none => true
  | some o =>
      (ChangeableUserProperties.model_fields.filter
        (fun f => ¬ (f ∈ ["uuid", "event_time", "session_id"]))).any
        (fun f => ¬ pyEq (o.getattr f) (new.getattr f))

/-! ### External collaborators

UUID parsing, ISO-8601 datetime parsing and regex search are runtime-library
behaviour, not code of this repository; the embedding takes them as
parameters and every theorem quantifies over them. -/

structure PyEnv where
  parseUUID : String → Option String
  parseIso : String → Option Int
  regexSearch : String → String → Option String

/-! ### Pydantic model construction

`PermanentUserProperties(**data)` and `ChangeableUserProperties(**data)`
either produce a validated record or raise a validation error (modelled by
`none`).  Field coercion models pydantic v2 lax mode as far as the data path
exercises it: `Optional[str]` accepts `None`/`str`; `Optional[int]` accepts
`None`/`int`/integer-literal `str` and rejects `bool`; `Optional[bool]`
accepts `None`/`bool`/`0`/`1`/`"true"`/`"false"`; the required `uuid` accepts
a UUID object or a parseable string; `event_time` goes through the
`parse_event_time` field validator of `app/db/schemas.py` (datetime passes,
strings via `fromisoformat` after replacing `Z`, all else fails).  Extra keys
are ignored and missing keys take the declared defaults, as pydantic does. -/

def vOptStr : PyVal → Option (Option String)
  | vNone => some none
  | vStr s => some (some s)
  | _ => none

def vOptInt : PyVal → Option (Option Int)
  | vNone => some none
  | vInt n => some (some n)
  | vStr s => (strToInt s).map some
  | _ => none

def vOptBool : PyVal → Option (Option Bool)
  | vNone => some none
  | vBool b => some (some b)
  | vInt n => if n = 0 then some (some false) else if n = 1 then some (some true) else none
  | vStr s => if s = "true" then some (some true) else if s = "false" then some (some false) else none
  | _ => none

def vReqInt : PyVal → Option Int
  | vInt n => some n
  | vStr s => strToInt s
  | _ => none

def vReqUuid (env : PyEnv) : PyVal → Option String
  | vUuid u => some u
  | vStr s => env.parseUUID s
  | _ => none

/-- The `parse_event_time` field validator of `app/db/schemas.py`. -/
def parse_event_time (env : PyEnv) : PyVal → Option Int
  | vDatetime t => some t
  | vStr s => env.parseIso (replaceCharStr 'Z' "+00:00" s)
  | _ => none

/-- The `ChangeableUserProperties(**c)`: validated construction from a dict. -/
def ChangeableUserProperties.validate (env : PyEnv) (c : Row) :
    Option ChangeableUserProperties :=
  match vOptInt (dictGetD c "ehr_id"), vReqUuid env (dictGetD c "uuid"),
        parse_event_time env (dictGetD c "event_time"),
        vOptStr (dictGetD c "language"), vOptInt (dictGetD c "age"),
        vOptStr (dictGetD c "app_city"), vOptBool (dictGetD c "push_permission"),
        vOptBool (dictGetD c "location_permission"),
        vOptBool (dictGetD c "authorization_status"),
        vOptInt (dictGetD c "telemed_files_sent"),
        vOptInt (dictGetD c "appointments_cancelled"),
        vOptInt (dictGetD c "telemed_files_received"),
        vOptInt (dictGetD c "telemed_messages_received"),
        vOptInt (dictGetD c "telemed_messages_sent"),
        vOptInt (dictGetD c "telemed_consultations_resumed"),
        vOptInt (dictGetD c "appointments_booked"),
        vOptInt (dictGetD c "session_id"),
        vOptStr (dictGetD c "start_version") with
  | some a1, some a2, some a3, some a4, some a5, some a6, some a7, some a8,
    some a9, some a10, some a11, some a12, some a13, some a14, some a15,
    some a16, some a17, some a18 =>
      some ⟨a1, a2, a3, a4, a5, a6, a7, a8, a9, a10, a11, a12, a13, a14, a15,
            a16, a17, a18⟩
  | _, _, _, _, _, _, _, _, _, _, _, _, _, _, _, _, _, _ => none

/-- The `PermanentUserProperties(**p)`: validated construction from a dict
(`first_login_at` has no field validator; pydantic lax still accepts a
datetime or an ISO string). -/
def PermanentUserProperties.validate (env : PyEnv) (p : Row) :
    Option PermanentUserProperties :=
  match vReqInt (dictGetD p "ehr_id"),
        parse_event_time env (dictGetD p "first_login_at"),
        vOptStr (dictGetD p "gender"), vOptInt (dictGetD p "cohort_day"),
        vOptInt (dictGetD p "cohort_week"), vOptInt (dictGetD p "cohort_month"),
        vOptBool (dictGetD p "registered_via_app"),
        vOptStr (dictGetD p "source") with
  | some a1, some a2, some a3, some a4, some a5, some a6, some a7, some a8 =>
      some ⟨a1, a2, a3, a4, a5, a6, a7, a8⟩
  | _, _, _, _, _, _, _, _ => none

/-- The `rec.model_dump()` for the permanent projection. -/
def PermanentUserProperties.model_dump (r : PermanentUserProperties) : Row :=
  [("ehr_id", vInt r.ehr_id),
   ("first_login_at", vDatetime r.first_login_at),
   ("gender", ChangeableUserProperties.optStrVal r.gender),
   ("cohort_day", ChangeableUserProperties.optIntVal r.cohort_day),
   ("cohort_week", ChangeableUserProperties.optIntVal r.cohort_week),
   ("cohort_month", ChangeableUserProperties.optIntVal r.cohort_month),
   ("registered_via_app", ChangeableUserProperties.optBoolVal r.registered_via_app),
   ("source", ChangeableUserProperties.optStrVal r.source)]

/-! ### The field-mapping catalog (loaded from `field_mappings.yaml`) -/

/-- One catalog entry, the `FieldMapping` shape used by
`app/etl/transformer.py` (optional keys are `Option`s: `none` models the key
being absent from the YAML entry). -/
structure FieldMapping where
  target : String
  sources : List String
  type : String
  transform : Option String := none
  value_map : Option (List (PyVal × PyVal)) := none
  extract_regex : Option String := none
  true_values : Option (List PyVal) := none
  false_values : Option (List PyVal) := none
  null_values : Option (List PyVal) := none

/-- The catalog: the two top-level lists of `field_mappings.yaml`. -/
structure Mappings where
  permanent : List FieldMapping := []
  changeable : List FieldMapping := []

/-- The known-keys set of `transform_single_record`: the union of all
mapping sources over the `permanent` and `changeable` sections, plus the
literal key `EHR_ID`. -/
def known_keys (m : Mappings) : List String :=
  ((m.permanent ++ m.changeable).foldl (fun acc f => acc ++ f.sources) []) ++ ["EHR_ID"]

/-! ### The transformer (`app/etl/transformer.py`) -/

/-- The `safe_dict`: the value if it is a dict, the empty dict otherwise. -/
def safe_dict : PyVal → Row
  | vDict d => d
  | _ => []

inductive SourceType where
  | amplitude
  | tmp_table
  deriving DecidableEq

/-- Python `value.lower()`: defined on strings, `AttributeError` otherwise
(an uncaught exception, modelled by `none`). -/
def pyLower : PyVal → Option PyVal
  | vStr s => some (vStr (pyToLower s))
  | _ => none

/-- Python assoc lookup `vm.get(value, value)` with `==` semantics. -/
def valueMapGet (vm : List (PyVal × PyVal)) (v : PyVal) : PyVal :=
  match vm.find? (fun p => pyEq p.1 v) with
  | some p => p.2
  | none => v

/-- Membership with Python `==`, for the boolean vocabularies. -/
def pyMem (v : PyVal) (l : List PyVal) : Bool :=
  l.any (fun w => pyEq v w)

/-- The source-selection loop of `extract_value`: first source whose value is
neither `None` nor `"N/A"`, read from the nested bag for known keys and from
the top level otherwise. -/
def selectSource (known : List String) (user_props raw_record : Row) :
    List String → PyVal
  | [] => vNone
  | s :: rest =>
      let raw_value :=
        if s ∈ known then dictGetD user_props s else dictGetD raw_record s
      if ¬ pyEq raw_value vNone ∧ ¬ pyEq raw_value (vStr "N/A") then raw_value
      else selectSource known user_props raw_record rest

/-- The type-coercion tail of `extract_value` applied to the selected
value: coerce by the mapping's declared type, appending to the error list
exactly as the closure in the source does.  The only uncaught exception on
this path is `.lower()` on a non-string (`none` result). -/
def extractCoerce (env : PyEnv) (field : FieldMapping)
    (errors : List TError) (value : PyVal) : Option (PyVal × List TError) :=
  if pyEq value vNone then some (vNone, errors)
  else
    if field.type = "string" then
      match (if field.transform = some "lowercase_first" then pyLower value
             else some value) with
      | none => none
      | some v1 =>
          some ((match field.value_map with
                 | some vm => valueMapGet vm v1
                 | none => v1), errors)
    else if field.type = "integer" then
      let v1 := match field.extract_regex with
                | some r =>
                    match env.regexSearch r (pyStr value) with
                    | some m => vStr m
                    | none => value
                | none => value
      match pyInt v1 with
      | some n => some (vInt n, errors)
      | none => some (vNone, errors ++ [⟨field.target, v1, "Invalid integer"⟩])
    else if field.type = "boolean" then
      let true_vals := field.true_values.getD []
      let false_vals := field.false_values.getD []
      let null_vals := field.null_values.getD []
      if pyMem value true_vals then some (vBool true, errors)
      else if pyMem value false_vals then some (vBool false, errors)
      else if pyMem value null_vals then some (vNone, errors)
      else some (vNone, errors ++ [⟨field.target, value, "Invalid boolean"⟩])
    else some (value, errors)

/-- The `extract_value` of `app/etl/transformer.py`: select the first usable
source value, then coerce by the mapping's declared type. -/
def extract_value (env : PyEnv) (known : List String)
    (user_props raw_record : Row) (field : FieldMapping)
    (errors : List TError) : Option (PyVal × List TError) :=
  extractCoerce env field errors
    (selectSource known user_props raw_record field.sources)

/-- The `uuid` step of `transform_single_record` (lines 33-48 of
`app/etl/transformer.py`). -/
def uuidStep (env : PyEnv) (raw : Row) : Except (List TError) String :=
  match dictGetD raw "uuid" with
  | vStr s =>
      match env.parseUUID s with
      | some u => .ok u
      | none => .error [⟨"uuid", vStr s, "Invalid UUID format"⟩]
  | vUuid u => .ok u
  | v => .error [⟨"uuid", v, "Expected str or UUID"⟩]

/-- The `event_time` step of `transform_single_record` (lines 51-79). -/
def eventTimeStep (env : PyEnv) (raw : Row) : Except (List TError) Int :=
  match dictGetD raw "event_time" with
  | vNone => .error [⟨"event_time", vNone, "Missing event_time"⟩]
  | vStr s =>
      match env.parseIso (replaceCharStr 'Z' "+00:00" s) with
      | some t => .ok t
      | none => .error [⟨"event_time", vStr s, "Invalid ISO datetime"⟩]
  | vDatetime t => .ok t
  | v => .error [⟨"event_time", vStr (pyStr v), "Unsupported type"⟩]

/-- Per-section field loop: `data[field.target] = extract_value(field)`,
with the shared error list threaded through. -/
def foldFields (env : PyEnv) (known : List String) (user_props raw_record : Row) :
    List FieldMapping → Row × List TError → Option (Row × List TError)
  | [], st => some st
  | f :: rest, st => do
      let (v, errs) ← extract_value env known user_props raw_record f st.2
      foldFields env known user_props raw_record rest (dictSet st.1 f.target v, errs)

/-- The sentinel test on the raw `EHR_ID` value:
`ehr_id_raw in [None, "N/A", "no ehr", "no_ehr"]`. -/
def ehrSentinel (v : PyVal) : Bool :=
  pyEq v vNone || pyEq v (vStr "N/A") || pyEq v (vStr "no ehr") || pyEq v (vStr "no_ehr")

/-- The unknown keys of the nested bag, in first-occurrence order
(the source iterates a Python set; only the set of keys matters). -/
def unknownKeys (user_props : Row) (known : List String) : List String :=
  ((user_props.map Prod.fst).eraseDups).filter (fun k => ¬ k ∈ known)

/-- The nested user-properties bag: `user_properties` for the archive
source, `user_properties_json` for staging, anything that is not a dict
becoming the empty dict. -/
def userPropsOf (raw : Row) : SourceType → Row
  | .amplitude => safe_dict (dictGetD raw "user_properties")
  | .tmp_table => safe_dict (dictGetD raw "user_properties_json")

/-- The `transform_single_record` of `app/etl/transformer.py`.  The outer
`Option` models an uncaught Python exception escaping the call (reachable
only through `.lower()` on a non-string mapping value); `some (p, c, errs)`
is the normal return triple.  The pydantic `str(e)` reasons are modelled by
the constant `"ValidationError"`. -/
def transform_single_record (env : PyEnv) (raw : Row)
    (source_type : SourceType) (mappings : Mappings) :
    Option (Option PermanentUserProperties × Option ChangeableUserProperties × List TError) :=
  match uuidStep env raw with
  | .error errs => some (none, none, errs)
  | .ok uuid =>
  match eventTimeStep env raw with
  | .error errs => some (none, none, errs)
  | .ok event_time =>
    let language := dictGetD raw "language"
    let session_id := dictGetD raw "session_id"
    let start_version := dictGetD raw "start_version"
    let user_props := userPropsOf raw source_type
    let known := known_keys mappings
    let unknown := unknownKeys user_props known
    if unknown.isEmpty then
      let ehr_id_raw := dictGetD user_props "EHR_ID"
      let ehrRes : Option Int × List TError :=
        if ehrSentinel ehr_id_raw then (none, [])
        else
          match pyInt ehr_id_raw with
          | some n => (some n, [])
          | none => (none, [⟨"EHR_ID", ehr_id_raw, "Invalid integer"⟩])
      do
        let (permanent_data, errs1) ←
          foldFields env known user_props raw mappings.permanent ([], ehrRes.2)
        let (changeable_data, errs2) ←
          foldFields env known user_props raw mappings.changeable ([], errs1)
        let permRes : Option PermanentUserProperties × List TError :=
          match ehrRes.1 with
          | none => (none, errs2)
          | some eid =>
              let pdata :=
                dictSet (dictSet permanent_data "ehr_id" (vInt eid))
                  "first_login_at" (vDatetime event_time)
              match PermanentUserProperties.validate env pdata with
              | some p => (some p, errs2)
              | none => (none, errs2 ++ [⟨"permanent", vNone, "ValidationError"⟩])
        let cdata :=
          dictSet (dictSet (dictSet (dictSet (dictSet (dictSet changeable_data
            "ehr_id" (ChangeableUserProperties.optIntVal ehrRes.1))
            "uuid" (vUuid uuid))
            "event_time" (vDatetime event_time))
            "language" language)
            "session_id" session_id)
            "start_version" start_version
        match ChangeableUserProperties.validate env cdata with
        | some c => some (permRes.1, some c, permRes.2)
        | none => some (permRes.1, none, permRes.2 ++ [⟨"changeable", vNone, "ValidationError"⟩])
    else
      some (none, none,
        unknown.map (fun k => ⟨k, dictGetD user_props k, "Unknown key"⟩))

/-! ### The warehouse repository (`app/db/repository.py`) -/

/-- Rendering of `psycopg2.sql.Identifier`: double-quote the name, doubling
any embedded double quote. -/
def quoteIdent (s : String) : String :=
  "\"" ++ replaceCharStr '"' "\"\"" s ++ "\""

/-- Python truthiness of the `limit`/`offset` arguments (`if limit:`):
`None` and `0` are falsy. -/
def intTruthy : Option Int → Bool
  | none => false
  | some n => n ≠ 0

/-- The query string composed by `DBRepository.select`, rendered as
`as_string` would: identifiers through `Identifier` (quoted), the
`where_conditions` operator through `SQL(op)` (verbatim), values as `%s`
placeholders.  `whereKeys` are the keys of the `where` dict, `whereConds`
the `(column, operator)` parts of the triples. -/
def selectQuery (table : String) (whereKeys : List String)
    (whereConds : List (String × String)) (orderBy : List String)
    (limit offset : Option Int) : String :=
  let base := "SELECT * FROM " ++ quoteIdent table
  let conditions :=
    whereKeys.map (fun c => quoteIdent c ++ " = %s") ++
    whereConds.map (fun p => quoteIdent p.1 ++ " " ++ p.2 ++ " %s")
  let q1 :=
    if conditions.isEmpty then base
    else base ++ " WHERE " ++ String.intercalate " AND " conditions
  let q2 :=
    if orderBy.isEmpty then q1
    else
      q1 ++ " ORDER BY " ++ String.intercalate ", "
        (orderBy.map (fun o =>
          if o.startsWith "-" then quoteIdent (o.drop 1) ++ " DESC"
          else quoteIdent o ++ " ASC"))
  let q3 := if intTruthy limit then q2 ++ " LIMIT %s" else q2
  if intTruthy offset then q3 ++ " OFFSET %s" else q3

/-- The query string composed by `DBRepository._insert_batch_query` for
`n` rows over the given columns: a raw f-string, identifiers spliced
verbatim. -/
def insertBatchQuery (table : String) (columns : List String) (n : Nat)
    (on_conflict conflict_target returning_column : Option String) : String :=
  let placeholders := "(" ++ String.intercalate ", "
    (List.replicate columns.length "%s") ++ ")"
  let q := "\n            INSERT INTO " ++ table ++ " (" ++
    String.intercalate ", " columns ++ ")\n            VALUES " ++
    String.intercalate ", " (List.replicate n placeholders) ++ "\n        "
  let q1 :=
    match on_conflict with
    | some oc => q ++ " ON CONFLICT " ++ conflict_target.getD "" ++ " " ++ oc
    | none => q
  match returning_column with
  | some rc => q1 ++ " RETURNING " ++ rc
  | none => q1

/-- What `_insert_batch_query` would build if it quoted its identifier
fragments the way `select`/`insert_one` do (the spec's requirement);
used only to compare against `insertBatchQuery`. -/
def insertBatchQueryQuoted (table : String) (columns : List String) (n : Nat)
    (on_conflict conflict_target returning_column : Option String) : String :=
  let placeholders := "(" ++ String.intercalate ", "
    (List.replicate columns.length "%s") ++ ")"
  let q := "\n            INSERT INTO " ++ quoteIdent table ++ " (" ++
    String.intercalate ", " (columns.map quoteIdent) ++ ")\n            VALUES " ++
    String.intercalate ", " (List.replicate n placeholders) ++ "\n        "
  let q1 :=
    match on_conflict with
    | some oc => q ++ " ON CONFLICT " ++ conflict_target.getD "" ++ " " ++ oc
    | none => q
  match returning_column with
  | some rc => q1 ++ " RETURNING " ++ quoteIdent rc
  | none => q1

/-- A fragment occurs verbatim in a query string. -/
def occursRaw (frag q : String) : Prop :=
  ∃ a b, q = a ++ frag ++ b

/-- The `TABLE_MODEL_MAP` with `len(model_class.model_fields)` per table, as
`_precompute_column_counts` computes it from `app/db/schemas.py`. -/
def TABLE_COLUMN_COUNTS : List (String × Nat) :=
  [("events_part", 13), ("mobile_devices", 7), ("permanent_user_properties", 8),
   ("technical_data", 9), ("tmp_event_properties", 2),
   ("tmp_user_properties", 7), ("user_locations", 7),
   ("changeable_user_properties", 18)]

/-- Column count for a table: the precomputed count, falling back to 20 for
tables outside the declared map. -/
def columnsPerRow (table : String) : Nat :=
  match TABLE_COLUMN_COUNTS.find? (fun p => p.1 == table) with
  | some p => p.2
  | none => 20

/-- The `_max_rows_for_table`: `min(int((max_params_per_query // col_count) *
safety_factor), max_rows_per_insert)`.  The float multiplication is modelled
over `ℚ`; `int()` truncation agrees with `⌊·⌋.toNat` for the non-negative
safety factors the configuration admits. -/
def max_rows_for_table (max_params_per_query : Nat) (safety_factor : ℚ)
    (max_rows_per_insert : Nat) (table : String) : Nat :=
  let col_count := columnsPerRow table
  let theoretical_max := max_params_per_query / col_count
  let safe_max := (⌊(theoretical_max : ℚ) * safety_factor⌋).toNat
  min safe_max max_rows_per_insert

/-- The contiguous chunks that the loop
`for i in range(0, len(rows), max_rows_per_batch)` slices out of `rows`
(`rows[i : i + max_rows_per_batch]`).  A zero step would raise `ValueError`
in Python; the embedding returns `[]` there and the theorems assume a
positive chunk size. -/
def chunkRowsAux (k : Nat) : Nat → List α → List (List α)
  | 0, _ => []
  | fuel + 1, l =>
      if l.isEmpty ∨ k = 0 then []
      else l.take k :: chunkRowsAux k fuel (l.drop k)

def chunkRows (k : Nat) (l : List α) : List (List α) :=
  chunkRowsAux k l.length l

/-- The `insert_batch` of `app/db/repository.py`, restricted to what it decides
locally: the sequence of per-statement row chunks (the inserted ids come
back from the database).  Empty input returns without issuing anything. -/
def insert_batch_chunks (max_params_per_query : Nat) (safety_factor : ℚ)
    (max_rows_per_insert : Nat) (table : String) (rows : List α) :
    List (List α) :=
  if rows.isEmpty then []
  else
    chunkRows
      (max_rows_for_table max_params_per_query safety_factor
        max_rows_per_insert table) rows

/-- The `batches` component returned by `insert_batch`: one per issued
statement. -/
def insert_batch_batches (max_params_per_query : Nat) (safety_factor : ℚ)
    (max_rows_per_insert : Nat) (table : String) (rows : List α) : Nat :=
  (insert_batch_chunks max_params_per_query safety_factor max_rows_per_insert
    table rows).length

/-! ### The orchestrator (`app/etl/orchestrator.py`)

Database calls are modelled as an emitted operation trace plus a response
parameter `permResp` for the ids the permanent insert returns.  The
transformer and the JSON decoder are taken as function parameters (the code
calls `transform_single_record` and `json.loads`); every theorem quantifies
over them.  An uncaught Python exception (`KeyError`, a crash inside a
collaborator) is the `crash` outcome, which `process_source` turns into an
HTTP 500. -/

inductive RepoOp where
  | insertBatchOp (table : String) (rows : List Row)
      (on_conflict conflict_target returning_column : Option String)
  | updateMigratedOp (uuids : List PyVal) (migrated : Bool)

/-- Python `d.get(eid)` on the `last_change` dict (keys are ints or `None`,
compared with `==`). -/
def lcGet (lc : List (PyVal × ChangeableUserProperties)) (k : PyVal) :
    Option ChangeableUserProperties :=
  (lc.find? (fun p => pyEq p.1 k)).map Prod.snd

/-- Python `d[eid] = v` on the `last_change` dict. -/
def lcSet (lc : List (PyVal × ChangeableUserProperties)) (k : PyVal)
    (v : ChangeableUserProperties) : List (PyVal × ChangeableUserProperties) :=
  if lc.any (fun p => pyEq p.1 k) then
    lc.map (fun p => if pyEq p.1 k then (k, v) else p)
  else lc ++ [(k, v)]

/-- Python `eid in existing_permanent` for a set of ints (`==` semantics,
so a bool matches its int value and any non-int value is absent). -/
def eidMemberInts (v : PyVal) (s : List Int) : Bool :=
  match v with
  | vInt n => s.contains n
  | vBool b => s.contains (if b then 1 else 0)
  | _ => false

/-- The permanent half of `flush`: keep the pending rows whose `ehr_id` is
not yet in `existing_permanent`, in order.  A row without an `ehr_id` key
would raise `KeyError` (`none`). -/
def collectPermanent (existing : List Int) : List Row → Option (List Row)
  | [] => some []
  | p :: rest =>
      match dictGet p "ehr_id" with
      | none => none
      | some eid => do
          let tail ← collectPermanent existing rest
          if eidMemberInts eid existing then pure tail else pure (p :: tail)

/-- Insert the filtered pending permanent rows (one `insert_batch` with
`ON CONFLICT (ehr_id) DO NOTHING RETURNING ehr_id`) and add the ids the
database reports inserted (`permResp`) to the cache. -/
def flushPermanent (permResp : List Row → List Int) (existing : List Int)
    (pending : List Row) : Option (List Int × List RepoOp) :=
  if pending.isEmpty then some (existing, [])
  else do
    let to_insert ← collectPermanent existing pending
    if to_insert.isEmpty then some (existing, [])
    else
      some (existing ++ permResp to_insert,
        [RepoOp.insertBatchOp "permanent_user_properties" to_insert
          (some "DO NOTHING") (some "(ehr_id)") (some "ehr_id")])

/-- One iteration of the changeable loop inside `flush`: read the row's
`ehr_id` (a `KeyError` if absent), construct the model (a validation error
skips the row), then insert-and-update-cache exactly when
`compare_changeable` reports a difference. -/
def flushChangeableStep (env : PyEnv)
    (st : List (PyVal × ChangeableUserProperties) × List Row) (c : Row) :
    Option (List (PyVal × ChangeableUserProperties) × List Row) :=
  match dictGet c "ehr_id" with
  | none => none
  | some eid =>
      match ChangeableUserProperties.validate env c with
      | none => some st
      | some new_rec =>
          let old := lcGet st.1 eid
          if compare_changeable old new_rec then
            some (lcSet st.1 eid new_rec, st.2 ++ [c])
          else some st

def flushChangeableFold (env : PyEnv)
    (st : List (PyVal × ChangeableUserProperties) × List Row) :
    List Row → Option (List (PyVal × ChangeableUserProperties) × List Row)
  | [] => some st
  | c :: rest => do
      flushChangeableFold env (← flushChangeableStep env st c) rest

/-- The changeable half of `flush`: fold the step over the buffer, then a
single `insert_batch` with `RETURNING uuid` when anything is due. -/
def flushChangeable (env : PyEnv)
    (lc : List (PyVal × ChangeableUserProperties)) (pending : List Row) :
    Option (List (PyVal × ChangeableUserProperties) × List RepoOp) :=
  if pending.isEmpty then some (lc, [])
  else do
    let res ← flushChangeableFold env (lc, []) pending
    if res.2.isEmpty then some (res.1, [])
    else
      some (res.1,
        [RepoOp.insertBatchOp "changeable_user_properties" res.2 none none
          (some "uuid")])

/-- The `flush` of `process_day`: permanent part, then changeable part; both
buffers are cleared by the caller (they are rebound to empty lists). -/
def flush (env : PyEnv) (permResp : List Row → List Int) (ep : List Int)
    (lc : List (PyVal × ChangeableUserProperties)) (pp pc : List Row) :
    Option (List Int × List (PyVal × ChangeableUserProperties) × List RepoOp) := do
  let r1 ← flushPermanent permResp ep pp
  let r2 ← flushChangeable env lc pc
  some (r1.1, r2.1, r1.2 ++ r2.2)

/-- The run-local mutable state of `process_source`/`process_day`. -/
structure DayState where
  processed_total : Nat
  existing_permanent : List Int
  last_change : List (PyVal × ChangeableUserProperties)
  pending_permanent : List Row
  pending_changeable : List Row
  batch_uuids : List PyVal
  ops : List RepoOp

/-- A `ProcessingInterrupted` value. -/
structure Interrupt where
  message : String
  last_successful_line : Option Int := none
  failed_line : Option Int := none
  file_key : Option String := none

/-- Outcome of a step or of a whole `process_day` call. -/
inductive StepRes where
  | ok (st : DayState)
  | interrupted (st : DayState) (pie : Interrupt)
  | crash

/-- The `_format_transform_error` of `app/etl/orchestrator.py`. -/
def _format_transform_error (errors : List TError) : String :=
  if errors.isEmpty then "Неизвестная ошибка трансформации"
  else
    let details := (errors.take 2).map
      (fun e => "'" ++ e.key ++ "' = " ++ pyStr e.value ++ " (" ++ e.reason ++ ")")
    let msg := String.intercalate "; " details
    let msg2 :=
      if errors.length > 2 then
        msg ++ " и ещё " ++ toString (errors.length - 2) ++ " ошибка(ок)"
      else msg
    "Ошибка трансформации: " ++ msg2

/-- Run `flush` inside a step, clearing both buffers. -/
def flushState (env : PyEnv) (permResp : List Row → List Int) (st : DayState) :
    Option DayState :=
  match flush env permResp st.existing_permanent st.last_change
      st.pending_permanent st.pending_changeable with
  | none => none
  | some r =>
      some { st with
             existing_permanent := r.1
             last_change := r.2.1
             pending_permanent := []
             pending_changeable := []
             ops := st.ops ++ r.2.2 }

/-- One line of the `amplitude` branch of `process_day`: JSON-decode (the
decoder is a parameter standing for `json.loads` on the stripped line),
transform (parameter standing for `transform_single_record`), interrupt on
either failure after a cleanup flush, otherwise buffer, count and flush on
the size trigger.  `line_idx` is the `enumerate` index over the lines the
caller passed in. -/
def ampLineStep (env : PyEnv) (permResp : List Row → List Int)
    (batch_size : Nat) (decode : String → Option Row)
    (transform : Row →
      Option PermanentUserProperties × Option ChangeableUserProperties × List TError)
    (file_key : Option String) (st : DayState) (line_idx : Nat)
    (line : String) : StepRes :=
  match decode (pyStrip line) with
  | none =>
      match flushState env permResp st with
      | none => .crash
      | some st' =>
          .interrupted st'
            ⟨"Невалидный JSON на строке " ++ toString line_idx,
             some ((line_idx : Int) - 1), some (line_idx : Int), file_key⟩
  | some raw_record =>
      let res := transform raw_record
      if ¬ res.2.2.isEmpty then
        match flushState env permResp st with
        | none => .crash
        | some st' =>
            .interrupted st'
              ⟨_format_transform_error res.2.2,
               some ((line_idx : Int) - 1), some (line_idx : Int), file_key⟩
      else
        let st1 :=
          { st with
            pending_permanent := st.pending_permanent ++
              (res.1.map PermanentUserProperties.model_dump).toList,
            pending_changeable := st.pending_changeable ++
              (res.2.1.map ChangeableUserProperties.model_dump).toList,
            processed_total := st.processed_total + 1 }
        if batch_size ≤ st1.pending_permanent.length ∨
            batch_size ≤ st1.pending_changeable.length then
          match flushState env permResp st1 with
          | none => .crash
          | some st2 => .ok st2
        else .ok st1

/-- The `amplitude` loop of `process_day` with its final flush. -/
def ampLoop (env : PyEnv) (permResp : List Row → List Int) (batch_size : Nat)
    (decode : String → Option Row)
    (transform : Row →
      Option PermanentUserProperties × Option ChangeableUserProperties × List TError)
    (file_key : Option String) (st : DayState) (line_idx : Nat) :
    List String → StepRes
  | [] =>
      match flushState env permResp st with
      | none => .crash
      | some st' => .ok st'
  | line :: rest =>
      match ampLineStep env permResp batch_size decode transform file_key st
          line_idx line with
      | .ok st' => ampLoop env permResp batch_size decode transform file_key
          st' (line_idx + 1) rest
      | r => r

/-- The `process_day` for `source_type = "amplitude"`: enumerate the given lines
from 0. -/
def process_day_amp (env : PyEnv) (permResp : List Row → List Int)
    (batch_size : Nat) (decode : String → Option Row)
    (transform : Row →
      Option PermanentUserProperties × Option ChangeableUserProperties × List TError)
    (file_key : Option String) (st : DayState) (lines : List String) : StepRes :=
  ampLoop env permResp batch_size decode transform file_key
    { st with
      pending_permanent := []
      pending_changeable := []
      batch_uuids := [] } 0 lines

/-- After a flush in the `tmp_table` branch: mark the collected batch uuids
migrated and clear the list (the source guards on the list being
non-empty). -/
def markMigrated (st : DayState) : DayState :=
  if st.batch_uuids.isEmpty then st
  else
    { st with
      ops := st.ops ++ [RepoOp.updateMigratedOp st.batch_uuids true]
      batch_uuids := [] }

/-- One row of the `tmp_table` branch of `process_day`: transform, interrupt
after a cleanup flush on any transformation error (note: no migrated
marking on this path), otherwise buffer projections and the row's raw
`uuid`, count, and on the size trigger flush and mark the batch migrated. -/
def tmpRowStep (env : PyEnv) (permResp : List Row → List Int)
    (batch_size : Nat)
    (transform : Row →
      Option PermanentUserProperties × Option ChangeableUserProperties × List TError)
    (st : DayState) (row : Row) : StepRes :=
  let res := transform row
  if ¬ res.2.2.isEmpty then
    match flushState env permResp st with
    | none => .crash
    | some st' =>
        .interrupted st'
          ⟨"Ошибка трансформации для записи " ++ pyStr (dictGetD row "uuid") ++
           ": " ++ _format_transform_error res.2.2, none, none, none⟩
  else
    match dictGet row "uuid" with
    | none => .crash
    | some u =>
        let st1 :=
          { st with
            pending_permanent := st.pending_permanent ++
              (res.1.map PermanentUserProperties.model_dump).toList,
            pending_changeable := st.pending_changeable ++
              (res.2.1.map ChangeableUserProperties.model_dump).toList,
            batch_uuids := st.batch_uuids ++ [u],
            processed_total := st.processed_total + 1 }
        if batch_size ≤ st1.pending_permanent.length ∨
            batch_size ≤ st1.pending_changeable.length then
          match flushState env permResp st1 with
          | none => .crash
          | some st2 => .ok (markMigrated st2)
        else .ok st1

/-- The `tmp_table` loop of `process_day` with its final flush and final
migrated marking. -/
def tmpLoop (env : PyEnv) (permResp : List Row → List Int) (batch_size : Nat)
    (transform : Row →
      Option PermanentUserProperties × Option ChangeableUserProperties × List TError)
    (st : DayState) : List Row → StepRes
  | [] =>
      match flushState env permResp st with
      | none => .crash
      | some st' => .ok (markMigrated st')
  | row :: rest =>
      match tmpRowStep env permResp batch_size transform st row with
      | .ok st' => tmpLoop env permResp batch_size transform st' rest
      | r => r

/-- The `process_day` for `source_type = "tmp_table"`: fresh day-local buffers,
then the row loop. -/
def process_day_tmp (env : PyEnv) (permResp : List Row → List Int)
    (batch_size : Nat)
    (transform : Row →
      Option PermanentUserProperties × Option ChangeableUserProperties × List TError)
    (st : DayState) (rows : List Row) : StepRes :=
  tmpLoop env permResp batch_size transform
    { st with
      pending_permanent := []
      pending_changeable := []
      batch_uuids := [] } rows

/-- What `process_source` hands back to the host. -/
inductive Response where
  | ok (d : Row)
  | httpOk (d : Row)
  | http500

/-- The success dict of `process_source`. -/
def completedDict (processed : Nat) : Row :=
  [("status", vStr "completed"), ("processed", vInt processed),
   ("errors", vInt 0), ("last_successful_line", vNone)]

def optIntStrVal : Option Int → PyVal
  | none => vNone
  | some n => vStr (toString n)

def optStrVal' : Option String → PyVal
  | none => vNone
  | some s => vStr s

/-- The interrupted dict of `process_source` (`errors_total` is never
incremented during processing, so the reported count is `0 + 1`). -/
def interruptedDict (processed : Nat) (pie : Interrupt) (amplitude : Bool) : Row :=
  let base :=
    [("status", vStr "interrupted"), ("processed", vInt processed),
     ("errors", vInt 1), ("error_message", vStr pie.message)]
  if amplitude then
    base ++
      [("last_successful_line", optIntStrVal pie.last_successful_line),
       ("failed_line", optIntStrVal pie.failed_line),
       ("file_key", optStrVal' pie.file_key)]
  else base

/-- The `process_source` for the `amplitude` source: the S3 object is given as
its (already split) lines; `start_after` indexes those lines; the caches
`ep0`/`lc0` are the database preload responses.  Returns the response and
the full operation trace. -/
def process_source_amp (env : PyEnv) (permResp : List Row → List Int)
    (batch_size : Nat) (decode : String → Option Row)
    (transform : Row →
      Option PermanentUserProperties × Option ChangeableUserProperties × List TError)
    (ep0 : List Int) (lc0 : List (PyVal × ChangeableUserProperties))
    (lines : List String) (start_after : Nat) (file_key : String) :
    Response × List RepoOp :=
  if lines.length ≤ start_after then
    (.ok [("processed", vInt 0), ("errors", vInt 0),
          ("last_successful_line", vStr (toString ((lines.length : Int) - 1)))],
     [])
  else
    let st0 : DayState :=
      ⟨0, ep0, lc0, [], [], [], []⟩
    match process_day_amp env permResp batch_size decode transform
        (some file_key) st0 (lines.drop start_after) with
    | .ok st => (.ok (completedDict st.processed_total), st.ops)
    | .interrupted st pie =>
        (.httpOk (interruptedDict st.processed_total pie true), st.ops)
    | .crash => (.http500, [])

/-- The day-walking loop of `process_source` for the `tmp_table` source:
`days` are the successive day-query results (the loop stops at the first
empty day; an exhausted list models the next day coming back empty). -/
def tmpDays (env : PyEnv) (permResp : List Row → List Int) (batch_size : Nat)
    (transform : Row →
      Option PermanentUserProperties × Option ChangeableUserProperties × List TError)
    (st : DayState) : List (List Row) → Response × List RepoOp
  | [] => (.ok (completedDict st.processed_total), st.ops)
  | rows :: rest =>
      if rows.isEmpty then (.ok (completedDict st.processed_total), st.ops)
      else
        match process_day_tmp env permResp batch_size transform st rows with
        | .ok st' => tmpDays env permResp batch_size transform st' rest
        | .interrupted st' pie =>
            (.httpOk (interruptedDict st'.processed_total pie false), st'.ops)
        | .crash => (.http500, [])

/-- The `process_source` for the `tmp_table` source. -/
def process_source_tmp (env : PyEnv) (permResp : List Row → List Int)
    (batch_size : Nat)
    (transform : Row →
      Option PermanentUserProperties × Option ChangeableUserProperties × List TError)
    (ep0 : List Int) (lc0 : List (PyVal × ChangeableUserProperties))
    (days : List (List Row)) : Response × List RepoOp :=
  tmpDays env permResp batch_size transform ⟨0, ep0, lc0, [], [], [], []⟩ days


/-- The `insert_one` of `app/db/repository.py`, rendered as `as_string` would:
identifiers through `Identifier`, values as placeholders, the conflict
fragments as raw `SQL(...)` text. -/
def insertOneQuery (table : String) (columns : List String)
    (on_conflict conflict_target : Option String) : String :=
  let q := "INSERT INTO " ++ quoteIdent table ++ " (" ++
    String.intercalate ", " (columns.map quoteIdent) ++ ") VALUES (" ++
    String.intercalate ", " (List.replicate columns.length "%s") ++ ")"
  match on_conflict with
  | some oc => q ++ " ON CONFLICT " ++ conflict_target.getD "" ++ " " ++ oc
  | none => q

/-- The change predicate as the spec states it: `old` absent, or some model
field outside `{uuid, event_time, session_id}` differs. -/
def changedSpec (old : Option ChangeableUserProperties)
    (new : ChangeableUserProperties) : Prop :=
  old = none ∨
    ∃ o, old = some o ∧ ∃ f ∈ ChangeableUserProperties.model_fields,
      f ∉ (["uuid", "event_time", "session_id"] : List String) ∧
      ¬ pyEq (o.getattr f) (new.getattr f)

/-! ### Concrete instances used by witnesses and counterexamples -/

/-- A stub runtime environment: UUID strings parse as themselves, every
ISO string parses to time 7, regex search never matches. -/
def stubEnv : PyEnv :=
  ⟨fun s => some s, fun _ => some 7, fun _ _ => none⟩

/-- A database that reports no inserted ids. -/
def noResp : List Row → List Int := fun _ => []

/-- A changeable record with a null partition key. -/
def sampleChg : ChangeableUserProperties :=
  { ehr_id := none, uuid := "u1", event_time := 5 }

/-- A row that fails `ChangeableUserProperties` validation (its `uuid` is
missing) but has an `ehr_id` entry. -/
def badChgRow : Row := [("ehr_id", vNone)]

/-- A one-mapping catalog (`Gender` → `gender`). -/
def gMap : FieldMapping :=
  { target := "gender", sources := ["Gender"], type := "string",
    value_map := some [(vStr "Male", vStr "m")] }

def gCatalog : Mappings := { permanent := [gMap], changeable := [] }

/-- A record carrying an unknown nested key. -/
def unknownKeyRaw : Row :=
  [("uuid", vStr "33333333"), ("event_time", vStr "2024-05-01T10:00:00Z"),
   ("user_properties", vDict [("CompletelyNewKey", vStr "x")])]

/-- A record whose nested `EHR_ID` is the sentinel `"N/A"`. -/
def sentinelRaw : Row :=
  [("uuid", vStr "22222222"), ("event_time", vStr "2024-05-01T10:00:00Z"),
   ("user_properties", vDict [("EHR_ID", vStr "N/A")])]

/-- The changeable projection the transformer produces for `sentinelRaw`. -/
def sentinelChg : ChangeableUserProperties :=
  { ehr_id := none, uuid := "22222222", event_time := 7 }

/-- A JSON decoder that accepts only the line `good`. -/
def decodeGoodOnly : String → Option Row :=
  fun s => if s == "good" then some [("uuid", vUuid "u")] else none

def rowA : Row := [("uuid", vUuid "ua")]

def rowB : Row := [("uuid", vUuid "ub")]

/-- A transformer stub: `rowA` yields a clean changeable projection, every
other row fails with one transformation error. -/
def cexTransform :
    Row → Option PermanentUserProperties × Option ChangeableUserProperties × List TError :=
  fun r =>
    if pyEq (dictGetD r "uuid") (vUuid "ua") then (none, some sampleChg, [])
    else (none, none, [⟨"k", vStr "x", "r"⟩])

/-! ### Auxiliary lemmas -/

theorem chunkRowsAux_flatten {α : Type} (k : Nat) (hk : k ≠ 0) :
    ∀ (fuel : Nat) (l : List α), l.length ≤ fuel →
      (chunkRowsAux k fuel l).flatten = l := by
  intro fuel
  induction fuel with
  | zero =>
      intro l hl
      have hl0 : l = [] := List.length_eq_zero.mp (Nat.le_zero.mp hl)
      subst hl0
      rfl
  | succ n ih =>
      intro l hl
      simp only [chunkRowsAux]
      split
      · rename_i h
        rcases h with h | h
        · simp [List.isEmpty_iff.mp h]
        · exact absurd h hk
      · rename_i h
        simp only [not_or, List.isEmpty_iff] at h
        have h1 : 0 < l.length := List.length_pos.mpr h.1
        have h2 : 0 < k := Nat.pos_of_ne_zero h.2
        rw [List.flatten_cons, ih (l.drop k) (by simp [List.length_drop]; omega),
          List.take_append_drop]

theorem chunkRows_flatten {α : Type} (k : Nat) (hk : k ≠ 0) (l : List α) :
    (chunkRows k l).flatten = l :=
  chunkRowsAux_flatten k hk l.length l le_rfl

theorem chunkRowsAux_length {α : Type} (k : Nat) (hk : 0 < k) :
    ∀ (fuel : Nat) (l : List α), l.length ≤ fuel →
      (chunkRowsAux k fuel l).length = (l.length + k - 1) / k := by
  intro fuel
  induction fuel with
  | zero =>
      intro l hl
      have hl0 : l = [] := List.length_eq_zero.mp (Nat.le_zero.mp hl)
      subst hl0
      simp [chunkRowsAux, Nat.div_eq_of_lt (show k - 1 < k by omega)]
  | succ n ih =>
      intro l hl
      simp only [chunkRowsAux]
      split
      · rename_i h
        rcases h with h | h
        · simp [List.isEmpty_iff.mp h, Nat.div_eq_of_lt (show k - 1 < k by omega)]
        · omega
      · rename_i h
        simp only [not_or, List.isEmpty_iff] at h
        have h1 : 0 < l.length := List.length_pos.mpr h.1
        simp only [List.length_cons]
        rw [ih (l.drop k) (by simp [List.length_drop]; omega)]
        simp only [List.length_drop]
        have e3 : (l.length + k - 1) = (l.length - 1) + k := by omega
        rw [e3, Nat.add_div_right _ hk]
        rcases Nat.lt_or_ge l.length (k + 1) with hc | hc
        · have e1 : l.length - k = 0 := by omega
          rw [e1]
          rw [Nat.div_eq_of_lt (show 0 + k - 1 < k by omega),
            Nat.div_eq_of_lt (show l.length - 1 < k by omega)]
        · have e2 : l.length - k + k - 1 = (l.length - 1 - k) + k := by omega
          rw [e2, Nat.add_div_right _ hk]
          conv_rhs => rw [show l.length - 1 = (l.length - 1 - k) + k by omega,
            Nat.add_div_right _ hk]

theorem chunkRows_length {α : Type} (k : Nat) (hk : 0 < k) (l : List α) :
    (chunkRows k l).length = (l.length + k - 1) / k :=
  chunkRowsAux_length k hk l.length l le_rfl

theorem chunkRowsAux_mem_le {α : Type} (k : Nat) :
    ∀ (fuel : Nat) (l : List α), l.length ≤ fuel →
      ∀ c ∈ chunkRowsAux k fuel l, c.length ≤ k := by
  intro fuel
  induction fuel with
  | zero => intro l hl c hc; simp [chunkRowsAux] at hc
  | succ n ih =>
      intro l hl
      simp only [chunkRowsAux]
      split
      · simp
      · rename_i h
        simp only [not_or, List.isEmpty_iff] at h
        have h1 : 0 < l.length := List.length_pos.mpr h.1
        have h2 : 0 < k := Nat.pos_of_ne_zero h.2
        intro c hc
        rcases List.mem_cons.mp hc with rfl | hc
        · simpa using List.length_take_le k l
        · exact ih (l.drop k) (by simp [List.length_drop]; omega) c hc

theorem chunkRows_mem_le {α : Type} (k : Nat) (l : List α) :
    ∀ c ∈ chunkRows k l, c.length ≤ k :=
  chunkRowsAux_mem_le k l.length l le_rfl

-- rational bound
theorem max_rows_mul_cols_le (mp mri : Nat) (sf : ℚ) (hsf : 0 ≤ sf)
    (table : String) :
    ((max_rows_for_table mp sf mri table : ℚ)) * (columnsPerRow table : ℚ) ≤
      (mp : ℚ) * sf := by
  set cols := columnsPerRow table with hcols
  set t := mp / cols with ht
  have hx0 : (0 : ℚ) ≤ (t : ℚ) * sf := mul_nonneg (by positivity) hsf
  have hfl : (0 : ℤ) ≤ ⌊(t : ℚ) * sf⌋ := Int.floor_nonneg.mpr hx0
  have hk1 : max_rows_for_table mp sf mri table ≤ (⌊(t : ℚ) * sf⌋).toNat := by
    simp only [max_rows_for_table]
    exact Nat.min_le_left _ _
  have hk2 : ((max_rows_for_table mp sf mri table : ℚ)) ≤ (t : ℚ) * sf := by
    calc ((max_rows_for_table mp sf mri table : ℚ))
        ≤ ((⌊(t : ℚ) * sf⌋).toNat : ℚ) := by exact_mod_cast hk1
      _ = ((⌊(t : ℚ) * sf⌋ : ℤ) : ℚ) := by
          exact_mod_cast congrArg (fun z : ℤ => (z : ℚ)) (Int.toNat_of_nonneg hfl)
      _ ≤ (t : ℚ) * sf := Int.floor_le _
  have hc0 : (0 : ℚ) ≤ (cols : ℚ) := by positivity
  calc ((max_rows_for_table mp sf mri table : ℚ)) * (cols : ℚ)
      ≤ ((t : ℚ) * sf) * (cols : ℚ) := mul_le_mul_of_nonneg_right hk2 hc0
    _ = ((t * cols : ℕ) : ℚ) * sf := by push_cast; ring
    _ ≤ (mp : ℚ) * sf := by
        apply mul_le_mul_of_nonneg_right _ hsf
        exact_mod_cast Nat.div_mul_le_self mp cols

theorem dictGet_dictSet_self (d : Row) (k : String) (v : PyVal) :
    dictGet (dictSet d k v) k = some v := by
  simp only [dictSet, dictGet]
  split
  · rename_i h
    induction d with
    | nil => simp at h
    | cons a rest ih =>
        simp only [List.any_cons, Bool.or_eq_true] at h
        simp only [List.map_cons]
        by_cases ha : (a.1 == k) = true
        · rw [if_pos ha, List.find?_cons_of_pos _ (by simp)]
          simp
        · rw [if_neg ha, List.find?_cons_of_neg _ (by simpa using ha)]
          apply ih
          rcases h with h | h
          · exact absurd h ha
          · exact h
  · rename_i h
    have hnone : d.find? (fun p => p.1 == k) = none := by
      rw [List.find?_eq_none]
      intro p hp hc
      exact h (List.any_eq_true.mpr ⟨p, hp, hc⟩)
    rw [List.find?_append, hnone]
    simp [List.find?]

theorem find?_map_replace (k k2 : String) (v : PyVal) (h : k ≠ k2) :
    ∀ d : Row,
      ((d.map (fun p => if p.1 == k2 then (k2, v) else p)).find?
        (fun p => p.1 == k)) = d.find? (fun p => p.1 == k) := by
  intro d
  induction d with
  | nil => simp
  | cons a rest ih =>
      simp only [List.map_cons]
      by_cases ha : (a.1 == k2) = true
      · rw [if_pos ha]
        have hk2 : ¬ (((k2, v) : String × PyVal).1 == k) = true := by
          simp [beq_iff_eq]
          exact fun hc => h hc.symm
        have hak : ¬ (a.1 == k) = true := by
          simp only [beq_iff_eq] at ha ⊢
          rw [ha]
          exact fun hc => h hc.symm
        rw [@List.find?_cons_of_neg _ (fun q : String × PyVal => q.1 == k) _ _ hk2,
          @List.find?_cons_of_neg _ (fun q : String × PyVal => q.1 == k) _ _ hak]
        exact ih
      · rw [if_neg ha]
        by_cases hak : (a.1 == k) = true
        · rw [@List.find?_cons_of_pos _ (fun q : String × PyVal => q.1 == k) _ _ hak,
            @List.find?_cons_of_pos _ (fun q : String × PyVal => q.1 == k) _ _ hak]
        · rw [@List.find?_cons_of_neg _ (fun q : String × PyVal => q.1 == k) _ _ hak,
            @List.find?_cons_of_neg _ (fun q : String × PyVal => q.1 == k) _ _ hak]
          exact ih

theorem dictGet_dictSet_ne (d : Row) (k k2 : String) (v : PyVal)
    (h : k ≠ k2) : dictGet (dictSet d k2 v) k = dictGet d k := by
  simp only [dictSet, dictGet]
  split
  · rw [find?_map_replace k k2 v h]
  · rw [List.find?_append]
    have h1 : List.find? (fun p => p.1 == k) [(k2, v)] = none := by
      have : (k2 == k) = false := by
        simp [beq_iff_eq]
        exact fun hc => h hc.symm
      simp [List.find?, this]
    rw [h1]
    simp

theorem dictGetD_dictSet_self (d : Row) (k : String) (v : PyVal) :
    dictGetD (dictSet d k v) k = v := by
  simp [dictGetD, dictGet_dictSet_self]

theorem dictGetD_dictSet_ne (d : Row) (k k2 : String) (v : PyVal)
    (h : k ≠ k2) : dictGetD (dictSet d k2 v) k = dictGetD d k := by
  simp [dictGetD, dictGet_dictSet_ne _ _ _ _ h]

theorem foldl_sources (l : List FieldMapping) :
    ∀ init : List String,
      l.foldl (fun acc f => acc ++ f.sources) init =
        init ++ (l.map (fun f => f.sources)).flatten := by
  induction l with
  | nil => intro init; simp
  | cons a rest ih =>
      intro init
      simp only [List.foldl_cons, List.map_cons, List.flatten_cons]
      rw [ih (init ++ a.sources)]
      simp [List.append_assoc]

theorem known_keys_mem (m : Mappings) (f : FieldMapping)
    (hf : f ∈ m.permanent ++ m.changeable) :
    ∀ s ∈ f.sources, s ∈ known_keys m := by
  intro s hs
  simp only [known_keys]
  apply List.mem_append_left
  rw [foldl_sources]
  simp only [List.nil_append, List.mem_flatten]
  exact ⟨f.sources, List.mem_map.mpr ⟨f, hf, rfl⟩, hs⟩

theorem selectSource_known (known : List String) (props : Row)
    (sources : List String) (h : ∀ s ∈ sources, s ∈ known) :
    ∀ raw1 raw2 : Row,
      selectSource known props raw1 sources =
        selectSource known props raw2 sources := by
  induction sources with
  | nil => intro raw1 raw2; rfl
  | cons s rest ih =>
      intro raw1 raw2
      have hs : s ∈ known := h s (List.mem_cons_self s rest)
      simp only [selectSource, if_pos hs]
      split
      · rfl
      · exact ih (fun x hx => h x (List.mem_cons_of_mem s hx)) raw1 raw2

theorem compare_changeable_iff (old : Option ChangeableUserProperties)
    (new : ChangeableUserProperties) :
    compare_changeable old new = true ↔ changedSpec old new := by
  cases old with
  | none => simp [compare_changeable, changedSpec]
  | some o =>
      simp only [compare_changeable, changedSpec, List.any_eq_true,
        List.mem_filter, decide_eq_true_eq]
      constructor
      · rintro ⟨f, ⟨hf, hnotex⟩, hne⟩
        exact Or.inr ⟨o, rfl, f, hf, by simpa using hnotex, hne⟩
      · rintro (hc | ⟨o2, ho2, f, hf, hnotex, hne⟩)
        · exact absurd hc (by simp)
        · obtain rfl : o2 = o := by injection ho2.symm
          exact ⟨f, ⟨hf, by simpa using hnotex⟩, hne⟩

theorem validate_ehr_id (env : PyEnv) (c : Row) (cc : ChangeableUserProperties)
    (h : ChangeableUserProperties.validate env c = some cc) :
    vOptInt (dictGetD c "ehr_id") = some cc.ehr_id := by
  unfold ChangeableUserProperties.validate at h
  split at h
  · rename_i a1 a2 a3 a4 a5 a6 a7 a8 a9 a10 a11 a12 a13 a14 a15 a16 a17 a18
      heq1 heq2 heq3 heq4 heq5 heq6 heq7 heq8 heq9 heq10 heq11 heq12 heq13
      heq14 heq15 heq16 heq17 heq18
    injection h with h2
    rw [heq1, ← h2]
  · exact absurd h (by simp)

theorem extractCoerce_errs (env : PyEnv) (f : FieldMapping)
    (errs0 : List TError) (value : PyVal) (v : PyVal) (errs : List TError)
    (h : extractCoerce env f errs0 value = some (v, errs)) :
    ∃ newErrs, errs = errs0 ++ newErrs ∧ ∀ e ∈ newErrs, e.key = f.target := by
  unfold extractCoerce at h
  repeat' split at h
  all_goals try simp only [] at h
  repeat' split at h
  all_goals
    first
      | exact Option.noConfusion h
      | (injection h with h2
         injection h2 with h4 h3
         subst h3
         first
           | exact ⟨[], (List.append_nil _).symm,
               fun e he => absurd he (List.not_mem_nil e)⟩
           | (refine ⟨[_], rfl, fun e he => ?_⟩
              rcases List.mem_singleton.mp he with rfl
              rfl))

theorem extract_value_errs (env : PyEnv) (known : List String)
    (props raw : Row) (f : FieldMapping) (errs0 : List TError)
    (v : PyVal) (errs : List TError)
    (h : extract_value env known props raw f errs0 = some (v, errs)) :
    ∃ newErrs, errs = errs0 ++ newErrs ∧ ∀ e ∈ newErrs, e.key = f.target :=
  extractCoerce_errs env f errs0 _ v errs h

theorem foldFields_errs (env : PyEnv) (known : List String)
    (props raw : Row) :
    ∀ (fields : List FieldMapping) (d0 : Row) (errs0 : List TError)
      (d : Row) (errs : List TError),
      foldFields env known props raw fields (d0, errs0) = some (d, errs) →
      ∃ newErrs, errs = errs0 ++ newErrs ∧
        ∀ e ∈ newErrs, ∃ f ∈ fields, e.key = f.target := by
  intro fields
  induction fields with
  | nil =>
      intro d0 errs0 d errs h
      simp only [foldFields] at h
      injection h with h2
      injection h2 with _ h3
      exact ⟨[], by simp [← h3]⟩
  | cons f rest ih =>
      intro d0 errs0 d errs h
      simp only [foldFields, Option.bind_eq_bind, Option.bind_eq_some] at h
      obtain ⟨⟨v1, errs1⟩, hv1, h2⟩ := h
      obtain ⟨new1, hnew1, hkeys1⟩ :=
        extract_value_errs env known props raw f errs0 v1 errs1 hv1
      obtain ⟨new2, hnew2, hkeys2⟩ := ih _ _ _ _ h2
      refine ⟨new1 ++ new2, ?_, ?_⟩
      · rw [hnew2, hnew1, List.append_assoc]
      · intro e he
        rcases List.mem_append.mp he with he | he
        · exact ⟨f, List.mem_cons_self f rest, hkeys1 e he⟩
        · obtain ⟨f2, hf2, hk⟩ := hkeys2 e he
          exact ⟨f2, List.mem_cons_of_mem f hf2, hk⟩

theorem flushPermanent_ops (permResp : List Row → List Int)
    (existing : List Int) (pending : List Row)
    (r : List Int × List RepoOp)
    (h : flushPermanent permResp existing pending = some r) :
    ∀ op ∈ r.2, ∃ tb rs oc ct rc, op = RepoOp.insertBatchOp tb rs oc ct rc := by
  unfold flushPermanent at h
  split at h
  · injection h with h2
    subst h2
    intro op hop
    exact absurd hop (List.not_mem_nil op)
  · simp only [Option.bind_eq_bind, Option.bind_eq_some] at h
    obtain ⟨ti, hti, h2⟩ := h
    split at h2
    · injection h2 with h3
      subst h3
      intro op hop
      exact absurd hop (List.not_mem_nil op)
    · injection h2 with h3
      subst h3
      intro op hop
      rcases List.mem_singleton.mp hop with rfl
      exact ⟨_, _, _, _, _, rfl⟩

theorem flushChangeable_ops (env : PyEnv)
    (lc : List (PyVal × ChangeableUserProperties)) (pending : List Row)
    (r : List (PyVal × ChangeableUserProperties) × List RepoOp)
    (h : flushChangeable env lc pending = some r) :
    ∀ op ∈ r.2, ∃ tb rs oc ct rc, op = RepoOp.insertBatchOp tb rs oc ct rc := by
  unfold flushChangeable at h
  split at h
  · injection h with h2
    subst h2
    intro op hop
    exact absurd hop (List.not_mem_nil op)
  · simp only [Option.bind_eq_bind, Option.bind_eq_some] at h
    obtain ⟨res, hres, h2⟩ := h
    split at h2
    · injection h2 with h3
      subst h3
      intro op hop
      exact absurd hop (List.not_mem_nil op)
    · injection h2 with h3
      subst h3
      intro op hop
      rcases List.mem_singleton.mp hop with rfl
      exact ⟨_, _, _, _, _, rfl⟩

theorem flush_ops (env : PyEnv) (permResp : List Row → List Int)
    (ep : List Int) (lc : List (PyVal × ChangeableUserProperties))
    (pp pc : List Row)
    (r : List Int × List (PyVal × ChangeableUserProperties) × List RepoOp)
    (h : flush env permResp ep lc pp pc = some r) :
    ∀ op ∈ r.2.2, ∃ tb rs oc ct rc, op = RepoOp.insertBatchOp tb rs oc ct rc := by
  unfold flush at h
  simp only [Option.bind_eq_bind, Option.bind_eq_some] at h
  obtain ⟨r1, hr1, h2⟩ := h
  obtain ⟨r2, hr2, h3⟩ := h2
  injection h3 with h4
  subst h4
  intro op hop
  rcases List.mem_append.mp hop with hop | hop
  · exact flushPermanent_ops permResp ep pp r1 hr1 op hop
  · exact flushChangeable_ops env lc pc r2 hr2 op hop

theorem flushChangeableFold_erase (env : PyEnv) (c : Row) (eid : PyVal)
    (h1 : dictGet c "ehr_id" = some eid)
    (h2 : ChangeableUserProperties.validate env c = none) :
    ∀ (L1 L2 : List Row)
      (st : List (PyVal × ChangeableUserProperties) × List Row),
      flushChangeableFold env st (L1 ++ c :: L2) =
        flushChangeableFold env st (L1 ++ L2) := by
  intro L1
  induction L1 with
  | nil =>
      intro L2 st
      simp only [List.nil_append, flushChangeableFold]
      have hstep : flushChangeableStep env st c = some st := by
        unfold flushChangeableStep
        rw [h1, h2]
      rw [hstep]
      rfl
  | cons a rest ih =>
      intro L2 st
      simp only [List.cons_append, flushChangeableFold]
      cases hstep : flushChangeableStep env st a with
      | none => rfl
      | some st' =>
          simp only [Option.bind_eq_bind, Option.some_bind]
          exact ih L2 st'

theorem flushChangeable_erase (env : PyEnv) (c : Row) (eid : PyVal)
    (h1 : dictGet c "ehr_id" = some eid)
    (h2 : ChangeableUserProperties.validate env c = none)
    (lc : List (PyVal × ChangeableUserProperties)) (L1 L2 : List Row) :
    flushChangeable env lc (L1 ++ c :: L2) =
      flushChangeable env lc (L1 ++ L2) := by
  unfold flushChangeable
  rcases hL : L1 ++ L2 with _ | ⟨a, rest⟩
  · have hL1 : L1 = [] := by
      cases L1 with
      | nil => rfl
      | cons x xs => simp at hL
    have hL2 : L2 = [] := by
      cases L1 with
      | nil => simpa using hL
      | cons x xs => simp at hL
    subst hL1; subst hL2
    simp only [List.nil_append, List.isEmpty_cons, List.isEmpty_nil]
    rw [if_neg (by simp)]
    have hfold : flushChangeableFold env (lc, []) [c] = some (lc, []) := by
      simp only [flushChangeableFold]
      have hstep : flushChangeableStep env (lc, []) c = some (lc, []) := by
        unfold flushChangeableStep
        rw [h1, h2]
      rw [hstep]
      rfl
    simp [hfold]
  · rw [if_neg (by simp)]
    rw [flushChangeableFold_erase env c eid h1 h2 L1 L2 (lc, [])]
    rw [hL]
    rw [if_neg (by simp)]

theorem flush_erase (env : PyEnv) (permResp : List Row → List Int)
    (ep : List Int) (lc : List (PyVal × ChangeableUserProperties))
    (pp : List Row) (L1 L2 : List Row) (c : Row) (eid : PyVal)
    (h1 : dictGet c "ehr_id" = some eid)
    (h2 : ChangeableUserProperties.validate env c = none) :
    flush env permResp ep lc pp (L1 ++ c :: L2) =
      flush env permResp ep lc pp (L1 ++ L2) := by
  unfold flush
  rw [flushChangeable_erase env c eid h1 h2 lc L1 L2]

theorem occursRaw_append_right (f q s : String) (h : occursRaw f q) :
    occursRaw f (q ++ s) := by
  obtain ⟨a, b, rfl⟩ := h
  exact ⟨a, b ++ s, by rw [String.append_assoc, String.append_assoc]⟩

theorem occursRaw_append_left (f q s : String) (h : occursRaw f q) :
    occursRaw f (s ++ q) := by
  obtain ⟨a, b, rfl⟩ := h
  exact ⟨s ++ a, b, by simp [String.append_assoc]⟩

theorem insertBatchQuery_raw_table (t : String) (cols : List String) (n : Nat)
    (oc ct rc : Option String) :
    occursRaw t (insertBatchQuery t cols n oc ct rc) := by
  unfold insertBatchQuery
  rcases oc with _ | oc <;> rcases rc with _ | rc <;>
    simp only [] <;>
    repeat'
      first
        | exact ⟨_, _, rfl⟩
        | exact ⟨_, "", (String.append_empty _).symm⟩
        | apply occursRaw_append_right

theorem selectQuery_raw_op (t c op : String) :
    occursRaw op (selectQuery t [] [(c, op)] [] none none) := by
  unfold selectQuery
  simp only [List.map_nil, List.map_cons, List.nil_append, List.isEmpty_nil,
    List.isEmpty_cons, intTruthy]
  rw [if_neg (by simp)]
  simp only [Bool.false_eq_true, if_false]
  apply occursRaw_append_left
  have : String.intercalate " AND " [quoteIdent c ++ " " ++ op ++ " %s"] =
      quoteIdent c ++ " " ++ op ++ " %s" := rfl
  rw [this]
  exact ⟨_, _, rfl⟩

theorem selectQuery_quotes_table (t : String) :
    selectQuery t [] [] [] none none = "SELECT * FROM " ++ quoteIdent t := by
  unfold selectQuery
  simp [intTruthy]

/-! ### Claims -/

/-- C5: during every flush, a buffered changeable row (with its `ehr_id`
entry and a successfully constructed model) is included in the insert set
iff `changed(old, new)` holds for `old = last_change[ehr_id]`; when included
`last_change[ehr_id]` is updated to the candidate, otherwise nothing is
inserted for it and `last_change` is unchanged.  The first conjunct ties the
code's `compare_changeable` to the spec's `changed` formula. -/
theorem claim_C5_change_detection (env : PyEnv)
    (lc : List (PyVal × ChangeableUserProperties)) (acc : List Row)
    (c : Row) (eid : PyVal) (new : ChangeableUserProperties)
    (h1 : dictGet c "ehr_id" = some eid)
    (h2 : ChangeableUserProperties.validate env c = some new) :
    (compare_changeable (lcGet lc eid) new = true ↔
      changedSpec (lcGet lc eid) new) ∧
    (changedSpec (lcGet lc eid) new →
      flushChangeableStep env (lc, acc) c =
        some (lcSet lc eid new, acc ++ [c])) ∧
    (¬ changedSpec (lcGet lc eid) new →
      flushChangeableStep env (lc, acc) c = some (lc, acc)) := by
  refine ⟨compare_changeable_iff _ _, ?_, ?_⟩
  · intro hch
    unfold flushChangeableStep
    rw [h1, h2]
    simp only []
    rw [if_pos ((compare_changeable_iff _ _).mpr hch)]
  · intro hch
    unfold flushChangeableStep
    rw [h1, h2]
    simp only []
    rw [if_neg (fun hc => hch ((compare_changeable_iff _ _).mp hc))]

/-- Witness for C5 at a concrete input: an empty `last_change` cache makes
the detector report a change, so the row is inserted and cached. -/
theorem claim_C5_witness :
    flushChangeableStep stubEnv ([], []) sampleChg.model_dump =
      some (lcSet [] vNone sampleChg, [] ++ [sampleChg.model_dump]) :=
  (claim_C5_change_detection stubEnv [] [] sampleChg.model_dump vNone
    sampleChg rfl rfl).2.1 (Or.inl rfl)

/-- C9: a buffered changeable row whose model construction raises a
validation error is silently skipped by the flush: the flush result (cache,
inserts, operations) is as if the row were never buffered — nothing is
inserted for it, `last_change` is unchanged for its `ehr_id`, and no error
or interruption is produced (the flush has no error channel; the row stays
counted in `processed`, which flushing never touches). -/
theorem claim_C9_invalid_row_skipped (env : PyEnv)
    (permResp : List Row → List Int) (ep : List Int)
    (lc : List (PyVal × ChangeableUserProperties)) (pp : List Row)
    (L1 L2 : List Row) (c : Row) (eid : PyVal)
    (h1 : dictGet c "ehr_id" = some eid)
    (h2 : ChangeableUserProperties.validate env c = none) :
    flush env permResp ep lc pp (L1 ++ c :: L2) =
      flush env permResp ep lc pp (L1 ++ L2) :=
  flush_erase env permResp ep lc pp L1 L2 c eid h1 h2

/-- Witness for C9 at a concrete input. -/
theorem claim_C9_witness :
    flush stubEnv noResp [] [] [] ([] ++ badChgRow :: []) =
      flush stubEnv noResp [] [] [] ([] ++ []) :=
  claim_C9_invalid_row_skipped stubEnv noResp [] [] [] [] [] badChgRow vNone
    rfl rfl

/-- C10: for every catalog, every source of every mapping lies in the
known-keys set, so the `source in known_keys` test inside `extract_value`
always takes the nested-bag branch and the top-level fallback
`raw_record.get(source)` is unreachable: the result never depends on the
top-level record. -/
theorem claim_C10_sources_known (env : PyEnv) (m : Mappings)
    (f : FieldMapping) (hf : f ∈ m.permanent ++ m.changeable) :
    (∀ s ∈ f.sources, s ∈ known_keys m) ∧
    ∀ (props raw1 raw2 : Row) (errs : List TError),
      extract_value env (known_keys m) props raw1 f errs =
        extract_value env (known_keys m) props raw2 f errs := by
  have hmem := known_keys_mem m f hf
  refine ⟨hmem, ?_⟩
  intro props raw1 raw2 errs
  unfold extract_value
  rw [selectSource_known (known_keys m) props f.sources hmem raw1 raw2]

/-- Witness for C10 at a concrete catalog and two distinct top-level
records. -/
theorem claim_C10_witness :
    ("Gender" ∈ known_keys gCatalog) ∧
    extract_value stubEnv (known_keys gCatalog) [("Gender", vStr "Male")]
        [("x", vInt 1)] gMap [] =
      extract_value stubEnv (known_keys gCatalog) [("Gender", vStr "Male")]
        [("y", vInt 2)] gMap [] :=
  ⟨(claim_C10_sources_known stubEnv gCatalog gMap (by simp [gCatalog])).1
      "Gender" (by simp [gMap]),
   (claim_C10_sources_known stubEnv gCatalog gMap (by simp [gCatalog])).2
      [("Gender", vStr "Male")] [("x", vInt 1)] [("y", vInt 2)] []⟩

/-- C6: for a record whose `uuid` and `event_time` parse, any unknown key in
the nested bag makes `transform_single_record` return `(none, none, errors)`
with exactly one `Unknown key` entry per unknown key (and one for each). -/
theorem claim_C6_unknown_keys (env : PyEnv) (raw : Row) (st : SourceType)
    (m : Mappings) (u : String) (t : Int)
    (h1 : uuidStep env raw = .ok u)
    (h2 : eventTimeStep env raw = .ok t)
    (h3 : unknownKeys (userPropsOf raw st) (known_keys m) ≠ []) :
    transform_single_record env raw st m =
      some (none, none,
        (unknownKeys (userPropsOf raw st) (known_keys m)).map
          (fun k => ⟨k, dictGetD (userPropsOf raw st) k, "Unknown key"⟩)) ∧
    ∀ k ∈ unknownKeys (userPropsOf raw st) (known_keys m),
      (⟨k, dictGetD (userPropsOf raw st) k, "Unknown key"⟩ : TError) ∈
        (unknownKeys (userPropsOf raw st) (known_keys m)).map
          (fun k => ⟨k, dictGetD (userPropsOf raw st) k, "Unknown key"⟩) := by
  constructor
  · have hEmpty : (unknownKeys (userPropsOf raw st) (known_keys m)).isEmpty = false := by
      simp [List.isEmpty_eq_false, h3]
    simp only [transform_single_record, h1, h2, hEmpty]
    simp
  · intro k hk
    exact List.mem_map.mpr ⟨k, hk, rfl⟩



/-- Witness for C6 at a concrete record with one unknown key. -/
theorem claim_C6_witness :
    transform_single_record stubEnv unknownKeyRaw .amplitude gCatalog =
      some (none, none,
        (unknownKeys (userPropsOf unknownKeyRaw .amplitude)
            (known_keys gCatalog)).map
          (fun k => ⟨k, dictGetD (userPropsOf unknownKeyRaw .amplitude) k,
            "Unknown key"⟩)) :=
  (claim_C6_unknown_keys stubEnv unknownKeyRaw .amplitude gCatalog "33333333"
    7 rfl rfl (by decide)).1

theorem transform_ehr_null (env : PyEnv) (raw : Row) (st : SourceType)
    (m : Mappings) (u : String) (t : Int)
    (h1 : uuidStep env raw = .ok u)
    (h2 : eventTimeStep env raw = .ok t)
    (h3 : unknownKeys (userPropsOf raw st) (known_keys m) = [])
    (errs0 : List TError)
    (hehr : (if ehrSentinel (dictGetD (userPropsOf raw st) "EHR_ID")
             then ((none : Option Int), ([] : List TError))
             else
               match pyInt (dictGetD (userPropsOf raw st) "EHR_ID") with
               | some n => (some n, [])
               | none => (none, [⟨"EHR_ID",
                   dictGetD (userPropsOf raw st) "EHR_ID", "Invalid integer"⟩]))
            = (none, errs0))
    (p : Option PermanentUserProperties)
    (c : Option ChangeableUserProperties) (errs : List TError)
    (h5 : transform_single_record env raw st m = some (p, c, errs)) :
    p = none ∧ (∀ cc, c = some cc → cc.ehr_id = none) ∧
    ∃ newErrs, errs = errs0 ++ newErrs ∧
      ∀ e ∈ newErrs,
        (∃ f ∈ m.permanent ++ m.changeable, e.key = f.target) ∨
          e.key = "changeable" := by
  have hEmpty : (unknownKeys (userPropsOf raw st) (known_keys m)).isEmpty = true := by
    simp [h3]
  simp only [transform_single_record, h1, h2, hEmpty, if_true] at h5
  rw [hehr] at h5
  simp only [Option.bind_eq_bind, Option.bind_eq_some] at h5
  obtain ⟨⟨pd, errs1⟩, hf1, h5⟩ := h5
  obtain ⟨⟨cd, errs2⟩, hf2, h5⟩ := h5
  obtain ⟨new1, hnew1, hkeys1⟩ := foldFields_errs env _ _ _ _ _ _ _ _ hf1
  obtain ⟨new2, hnew2, hkeys2⟩ := foldFields_errs env _ _ _ _ _ _ _ _ hf2
  set props := userPropsOf raw st with hprops
  set cdata :=
    dictSet (dictSet (dictSet (dictSet (dictSet (dictSet cd
      "ehr_id" (ChangeableUserProperties.optIntVal none))
      "uuid" (vUuid u))
      "event_time" (vDatetime t))
      "language" (dictGetD raw "language"))
      "session_id" (dictGetD raw "session_id"))
      "start_version" (dictGetD raw "start_version") with hcdata
  have hget : dictGetD cdata "ehr_id" = vNone := by
    rw [hcdata]
    rw [dictGetD_dictSet_ne _ _ _ _ (by decide),
      dictGetD_dictSet_ne _ _ _ _ (by decide),
      dictGetD_dictSet_ne _ _ _ _ (by decide),
      dictGetD_dictSet_ne _ _ _ _ (by decide),
      dictGetD_dictSet_ne _ _ _ _ (by decide),
      dictGetD_dictSet_self]
    rfl
  cases hv : ChangeableUserProperties.validate env cdata with
  | some cc =>
      simp only [hv, Option.some.injEq, Prod.mk.injEq] at h5
      obtain ⟨hp, hc, herrs⟩ := h5
      refine ⟨hp.symm, ?_, ?_⟩
      · intro cc2 hcc2
        rw [← hc] at hcc2
        injection hcc2 with hcc3
        subst hcc3
        have hval := validate_ehr_id env cdata cc hv
        rw [hget] at hval
        simp only [vOptInt, Option.some.injEq] at hval
        exact hval.symm
      · refine ⟨new1 ++ new2, ?_, ?_⟩
        · rw [← herrs]
          have hcalc : errs2 = errs0 ++ (new1 ++ new2) := by
            rw [hnew2]
            show errs1 ++ new2 = _
            rw [hnew1, List.append_assoc]
          exact hcalc
        · intro e he
          rcases List.mem_append.mp he with he | he
          · obtain ⟨f, hf, hk⟩ := hkeys1 e he
            exact Or.inl ⟨f, List.mem_append_left _ hf, hk⟩
          · obtain ⟨f, hf, hk⟩ := hkeys2 e he
            exact Or.inl ⟨f, List.mem_append_right _ hf, hk⟩
  | none =>
      simp only [hv, Option.some.injEq, Prod.mk.injEq] at h5
      obtain ⟨hp, hc, herrs⟩ := h5
      refine ⟨hp.symm, ?_, ?_⟩
      · intro cc2 hcc2
        rw [← hc] at hcc2
        exact Option.noConfusion hcc2
      · refine ⟨new1 ++ new2 ++ [⟨"changeable", vNone, "ValidationError"⟩], ?_, ?_⟩
        · rw [← herrs]
          have hcalc : errs2 ++ [(⟨"changeable", vNone, "ValidationError"⟩ : TError)] =
              errs0 ++ (new1 ++ new2 ++ [⟨"changeable", vNone, "ValidationError"⟩]) := by
            rw [hnew2]
            show (errs1 ++ new2) ++ _ = _
            rw [hnew1]
            simp [List.append_assoc]
          exact hcalc
        · intro e he
          rcases List.mem_append.mp he with he | he
          · rcases List.mem_append.mp he with he | he
            · obtain ⟨f, hf, hk⟩ := hkeys1 e he
              exact Or.inl ⟨f, List.mem_append_left _ hf, hk⟩
            · obtain ⟨f, hf, hk⟩ := hkeys2 e he
              exact Or.inl ⟨f, List.mem_append_right _ hf, hk⟩
          · rcases List.mem_singleton.mp he with rfl
            exact Or.inr rfl



/-- C7: for a record whose `uuid`/`event_time` parse and whose nested bag
has no unknown keys (and whose catalog does not target a field literally
named `EHR_ID`): a missing or sentinel `EHR_ID` yields `ehr_id = null`, no
`Permanent`, a `Changeable` (when its validation succeeds) carrying
`ehr_id = null`, and no error keyed `EHR_ID`; any other non-integer
`EHR_ID` records an `Invalid integer` error but still continues with
`ehr_id = null` instead of rejecting the record. -/
theorem claim_C7_ehr_sentinels (env : PyEnv) (raw : Row) (st : SourceType)
    (m : Mappings) (u : String) (t : Int)
    (p : Option PermanentUserProperties)
    (c : Option ChangeableUserProperties) (errs : List TError)
    (h1 : uuidStep env raw = .ok u)
    (h2 : eventTimeStep env raw = .ok t)
    (h3 : unknownKeys (userPropsOf raw st) (known_keys m) = [])
    (h4 : ∀ f ∈ m.permanent ++ m.changeable, f.target ≠ "EHR_ID")
    (h5 : transform_single_record env raw st m = some (p, c, errs)) :
    (ehrSentinel (dictGetD (userPropsOf raw st) "EHR_ID") = true →
      p = none ∧ (∀ cc, c = some cc → cc.ehr_id = none) ∧
      ∀ e ∈ errs, e.key ≠ "EHR_ID") ∧
    (ehrSentinel (dictGetD (userPropsOf raw st) "EHR_ID") = false →
      pyInt (dictGetD (userPropsOf raw st) "EHR_ID") = none →
      (⟨"EHR_ID", dictGetD (userPropsOf raw st) "EHR_ID",
        "Invalid integer"⟩ : TError) ∈ errs ∧
      p = none ∧ ∀ cc, c = some cc → cc.ehr_id = none) := by
  constructor
  · intro hs
    have hehr : (if ehrSentinel (dictGetD (userPropsOf raw st) "EHR_ID")
        then ((none : Option Int), ([] : List TError))
        else
          match pyInt (dictGetD (userPropsOf raw st) "EHR_ID") with
          | some n => (some n, [])
          | none => (none, [⟨"EHR_ID",
              dictGetD (userPropsOf raw st) "EHR_ID", "Invalid integer"⟩]))
        = (none, []) := by
      rw [if_pos hs]
    obtain ⟨hp, hcc, newErrs, herrs, hkeys⟩ :=
      transform_ehr_null env raw st m u t h1 h2 h3 [] hehr p c errs h5
    refine ⟨hp, hcc, ?_⟩
    intro e he
    rw [herrs] at he
    simp only [List.nil_append] at he
    rcases hkeys e he with ⟨f, hf, hk⟩ | hk
    · rw [hk]
      exact h4 f hf
    · rw [hk]
      decide
  · intro hs hpy
    have hehr : (if ehrSentinel (dictGetD (userPropsOf raw st) "EHR_ID")
        then ((none : Option Int), ([] : List TError))
        else
          match pyInt (dictGetD (userPropsOf raw st) "EHR_ID") with
          | some n => (some n, [])
          | none => (none, [⟨"EHR_ID",
              dictGetD (userPropsOf raw st) "EHR_ID", "Invalid integer"⟩]))
        = (none, [⟨"EHR_ID", dictGetD (userPropsOf raw st) "EHR_ID",
            "Invalid integer"⟩]) := by
      rw [if_neg (by simp [hs]), hpy]
    obtain ⟨hp, hcc, newErrs, herrs, hkeys⟩ :=
      transform_ehr_null env raw st m u t h1 h2 h3 _ hehr p c errs h5
    refine ⟨?_, hp, hcc⟩
    rw [herrs]
    exact List.mem_append_left _ (List.mem_singleton.mpr rfl)

/-- Witness for C7 at a concrete sentinel record. -/
theorem claim_C7_witness :
    (none : Option PermanentUserProperties) = none ∧
    (∀ cc, (some sentinelChg : Option ChangeableUserProperties) = some cc →
      cc.ehr_id = none) ∧
    (∀ e ∈ ([] : List TError), e.key ≠ "EHR_ID") :=
  (claim_C7_ehr_sentinels stubEnv sentinelRaw .amplitude gCatalog "22222222"
    7 none (some sentinelChg) [] rfl rfl (by decide)
    (by
      intro f hf
      rcases List.mem_append.mp hf with hf | hf
      · rcases List.mem_singleton.mp hf with rfl
        decide
      · exact absurd hf (List.not_mem_nil f))
    rfl).1 rfl

/-- C4: `insert_batch` splits the rows in order into contiguous chunks of at
most `rows_per_batch = min(int((max_params_per_query // columns) ×
safety_factor), max_rows_per_insert)` rows, issues one statement per chunk
(`batches = ceil(len(rows) / rows_per_batch)`), every chunk satisfies both
ceilings, the S4 instance (100 params, factor 1, 13-column `events_part`,
40 rows) issues exactly 6 statements, and unknown tables fall back to 20
columns. -/
theorem claim_C4_insert_batch_chunking {α : Type} (mp mri : Nat) (sf : ℚ)
    (table : String) (rows : List α) (hsf : 0 ≤ sf)
    (hk : 0 < max_rows_for_table mp sf mri table) :
    max_rows_for_table mp sf mri table =
      min ((⌊((mp / columnsPerRow table : Nat) : ℚ) * sf⌋).toNat) mri ∧
    (insert_batch_chunks mp sf mri table rows).flatten = rows ∧
    insert_batch_batches mp sf mri table rows =
      (rows.length + max_rows_for_table mp sf mri table - 1) /
        max_rows_for_table mp sf mri table ∧
    (∀ ch ∈ insert_batch_chunks mp sf mri table rows,
        ch.length ≤ mri ∧
        (ch.length : ℚ) * (columnsPerRow table : ℚ) ≤ (mp : ℚ) * sf) ∧
    insert_batch_batches 100 1 10000 "events_part"
      (List.replicate 40 (0 : Nat)) = 6 ∧
    columnsPerRow "events_part" = 13 ∧
    ∀ tb : String, TABLE_COLUMN_COUNTS.find? (fun q => q.1 == tb) = none →
      columnsPerRow tb = 20 := by
  have hkk := hk
  refine ⟨rfl, ?_, ?_, ?_, ?_, by rfl, ?_⟩
  · by_cases he : rows.isEmpty
    · simp [insert_batch_chunks, he, List.isEmpty_iff.mp he]
    · simp only [insert_batch_chunks, he, Bool.false_eq_true, if_false]
      exact chunkRows_flatten _ (Nat.pos_iff_ne_zero.mp hk) rows
  · by_cases he : rows.isEmpty
    · have hrows : rows = [] := List.isEmpty_iff.mp he
      subst hrows
      simp only [insert_batch_batches, insert_batch_chunks, List.isEmpty_nil,
        if_true, List.length_nil]
      exact (Nat.div_eq_of_lt (by omega)).symm
    · simp only [insert_batch_batches, insert_batch_chunks, he,
        Bool.false_eq_true, if_false]
      exact chunkRows_length _ hk rows
  · intro ch hch
    have hmem : ch ∈ chunkRows (max_rows_for_table mp sf mri table) rows := by
      by_cases he : rows.isEmpty
      · simp [insert_batch_chunks, he] at hch
      · simpa [insert_batch_chunks, he] using hch
    have hle : ch.length ≤ max_rows_for_table mp sf mri table :=
      chunkRows_mem_le _ rows ch hmem
    constructor
    · exact le_trans hle (Nat.min_le_right _ _)
    · have h1 : (ch.length : ℚ) ≤ (max_rows_for_table mp sf mri table : ℚ) := by
        exact_mod_cast hle
      have h2 : (0 : ℚ) ≤ (columnsPerRow table : ℚ) := by positivity
      calc (ch.length : ℚ) * (columnsPerRow table : ℚ)
          ≤ (max_rows_for_table mp sf mri table : ℚ) * (columnsPerRow table : ℚ) :=
            mul_le_mul_of_nonneg_right h1 h2
        _ ≤ (mp : ℚ) * sf := max_rows_mul_cols_le mp mri sf hsf table
  · have hk7 : max_rows_for_table 100 1 10000 "events_part" = 7 := by
      simp only [max_rows_for_table, columnsPerRow, TABLE_COLUMN_COUNTS,
        List.find?]
      norm_num
      rfl
    simp only [insert_batch_batches, insert_batch_chunks, hk7]
    rw [if_neg (by simp)]
    rw [chunkRows_length 7 (by norm_num)]
    simp
  · intro tb htb
    simp [columnsPerRow, htb]

/-- Witness for C4: the S4 configuration discharges the hypotheses and the
batch count evaluates to 6. -/
theorem claim_C4_witness :
    insert_batch_batches 100 1 10000 "events_part"
      (List.replicate 40 (0 : Nat)) = 6 :=
  (claim_C4_insert_batch_chunking 100 10000 1 "events_part"
    (List.replicate 40 (0 : Nat)) (by norm_num)
    (by
      have hk7 : max_rows_for_table 100 1 10000 "events_part" = 7 := by
        simp only [max_rows_for_table, columnsPerRow, TABLE_COLUMN_COUNTS,
          List.find?]
        norm_num
        rfl
      rw [hk7]
      norm_num)).2.2.2.2.1



/-- C3 counterexample: `_insert_batch_query` splices the table name raw (so
an injected fragment survives verbatim, unlike the quoted rendering), and
`select` splices the `where_conditions` operator raw. -/
theorem claim_C3_counterexample :
    insertBatchQuery "users; DROP TABLE users; --" ["a"] 1 none none none ≠
      insertBatchQueryQuoted "users; DROP TABLE users; --" ["a"] 1
        none none none ∧
    insertBatchQuery "users; DROP TABLE users; --" ["a"] 1 none none none =
      "\n            INSERT INTO users; DROP TABLE users; -- (a)\n            VALUES (%s)\n        " ∧
    selectQuery "t" [] [("c", "= 0 OR 1=1; --")] [] none none =
      "SELECT * FROM \"t\" WHERE \"c\" = 0 OR 1=1; -- %s" := by
  refine ⟨by decide, rfl, rfl⟩

/-- C3 amended: identifier quoting holds in `select` and `insert_one`
(identifiers through `Identifier`, values through placeholders), but
`_insert_batch_query` splices the table name (and its other fragments)
verbatim into the SQL text, and the `where_conditions` operator of `select`
is also spliced verbatim. -/
theorem claim_C3_amended :
    (∀ (t : String) (cols : List String) (n : Nat) (oc ct rc : Option String),
        occursRaw t (insertBatchQuery t cols n oc ct rc)) ∧
    (∀ t c op : String,
        occursRaw op (selectQuery t [] [(c, op)] [] none none)) ∧
    (∀ t : String,
        selectQuery t [] [] [] none none = "SELECT * FROM " ++ quoteIdent t) ∧
    (∀ (t : String) (cols : List String),
        insertOneQuery t cols none none =
          "INSERT INTO " ++ quoteIdent t ++ " (" ++
            String.intercalate ", " (cols.map quoteIdent) ++ ") VALUES (" ++
            String.intercalate ", " (List.replicate cols.length "%s") ++ ")") :=
  ⟨insertBatchQuery_raw_table, selectQuery_raw_op, selectQuery_quotes_table,
   fun t cols => rfl⟩

/-- C2 (evidence of the indexing bug): an archive run over a two-line file
with `start_after = 1` whose stored line 1 fails decoding reports
`failed_line = "0"` and `last_successful_line = "-1"` — indices relative to
the slice `lines[start_after:]`, not to the stored file — so resuming with
`start_after := last_successful_line + 1 = 0` re-reads line 0 instead of
resuming at the failed stored line 1. -/
theorem claim_C2_relative_indexing :
    process_source_amp stubEnv noResp 1000 decodeGoodOnly
        (fun _ => (none, none, [])) [] [] ["good", "bad"] 1 "k" =
      (.httpOk [("status", vStr "interrupted"), ("processed", vInt 0),
                ("errors", vInt 1),
                ("error_message", vStr "Невалидный JSON на строке 0"),
                ("last_successful_line", vStr "-1"), ("failed_line", vStr "0"),
                ("file_key", vStr "k")], []) := rfl

/-- C8 counterexample: the early return of an archive run with
`start_after ≥ len(lines)` carries only three fields — no `status` key. -/
theorem claim_C8_counterexample :
    process_source_amp stubEnv noResp 1000 (fun _ => none)
        (fun _ => (none, none, [])) [] [] ["x"] 1 "k" =
      (.ok [("processed", vInt 0), ("errors", vInt 0),
            ("last_successful_line", vStr "0")], []) ∧
    dictGet [("processed", vInt 0), ("errors", vInt 0),
      ("last_successful_line", vStr "0")] "status" = none :=
  ⟨rfl, rfl⟩

theorem tmpDays_ok_shape (env : PyEnv) (permResp : List Row → List Int)
    (bs : Nat)
    (transform : Row →
      Option PermanentUserProperties × Option ChangeableUserProperties × List TError) :
    ∀ (days : List (List Row)) (st : DayState) (d : Row) (ops : List RepoOp),
      tmpDays env permResp bs transform st days = (.ok d, ops) →
      ∃ n, d = completedDict n := by
  intro days
  induction days with
  | nil =>
      intro st d ops h
      simp only [tmpDays] at h
      injection h with h1 h2
      injection h1 with h3
      exact ⟨st.processed_total, h3.symm⟩
  | cons rows rest ih =>
      intro st d ops h
      simp only [tmpDays] at h
      split at h
      · injection h with h1 h2
        injection h1 with h3
        exact ⟨st.processed_total, h3.symm⟩
      · split at h
        · exact ih _ _ _ h
        · injection h with h1 h2
          exact absurd h1 (by simp)
        · injection h with h1 h2
          exact absurd h1 (by simp)

/-- C8 amended: every run that terminates without interruption returns the
four fields `status = completed`, `processed`, `errors`,
`last_successful_line` — except an archive run invoked with
`start_after ≥ len(lines)`, whose early return carries only
`processed`, `errors` and `last_successful_line`, with no `status` key. -/
theorem claim_C8_amended :
    (∀ (env : PyEnv) (permResp : List Row → List Int) (bs : Nat)
        (decode : String → Option Row)
        (transform : Row →
          Option PermanentUserProperties × Option ChangeableUserProperties × List TError)
        (ep : List Int) (lc : List (PyVal × ChangeableUserProperties))
        (lines : List String) (s : Nat) (fk : String) (d : Row)
        (ops : List RepoOp),
        s < lines.length →
        process_source_amp env permResp bs decode transform ep lc lines s fk =
          (.ok d, ops) →
        ∃ n, d = completedDict n) ∧
    (∀ (env : PyEnv) (permResp : List Row → List Int) (bs : Nat)
        (transform : Row →
          Option PermanentUserProperties × Option ChangeableUserProperties × List TError)
        (ep : List Int) (lc : List (PyVal × ChangeableUserProperties))
        (days : List (List Row)) (d : Row) (ops : List RepoOp),
        process_source_tmp env permResp bs transform ep lc days = (.ok d, ops) →
        ∃ n, d = completedDict n) ∧
    (∀ (env : PyEnv) (permResp : List Row → List Int) (bs : Nat)
        (decode : String → Option Row)
        (transform : Row →
          Option PermanentUserProperties × Option ChangeableUserProperties × List TError)
        (ep : List Int) (lc : List (PyVal × ChangeableUserProperties))
        (lines : List String) (s : Nat) (fk : String) (d : Row)
        (ops : List RepoOp),
        lines.length ≤ s →
        process_source_amp env permResp bs decode transform ep lc lines s fk =
          (.ok d, ops) →
        dictGet d "status" = none) := by
  refine ⟨?_, ?_, ?_⟩
  · intro env permResp bs decode transform ep lc lines s fk d ops hs h
    unfold process_source_amp at h
    rw [if_neg (by omega)] at h
    dsimp only [] at h
    split at h
    · injection h with h1 h2
      injection h1.symm with h3
      exact ⟨_, h3⟩
    · injection h with h1 h2
      exact absurd h1 (by simp)
    · injection h with h1 h2
      exact absurd h1 (by simp)
  · intro env permResp bs transform ep lc days d ops h
    exact tmpDays_ok_shape env permResp bs transform days _ d ops h
  · intro env permResp bs decode transform ep lc lines s fk d ops hs h
    unfold process_source_amp at h
    rw [if_pos hs] at h
    injection h with h1 h2
    injection h1.symm with h3
    rw [h3]
    rfl

/-- Witness for C8 (amended): a staging run over an exhausted day list
returns the completed dict. -/
theorem claim_C8_amended_witness :
    ∃ n, completedDict 0 = completedDict n :=
  claim_C8_amended.2.1 stubEnv noResp 1000 (fun _ => (none, none, [])) [] []
    [] (completedDict 0) [] rfl



/-- C1 amended: in staging mode a transformation error makes the row step
flush the clean buffered rows and raise `ProcessingInterrupted`, but it does
NOT mark the collected `batch_uuids` as migrated: the only operations the
interrupt path emits are the flush's batch inserts, and `batch_uuids` is
left as it was (uuids are marked migrated only at size-triggered flushes and
at normal end-of-day). -/
theorem claim_C1_amended (env : PyEnv) (permResp : List Row → List Int)
    (batch_size : Nat)
    (transform : Row →
      Option PermanentUserProperties × Option ChangeableUserProperties × List TError)
    (st : DayState) (row : Row)
    (herr : (transform row).2.2 ≠ [])
    (st' : DayState) (pie : Interrupt)
    (hres : tmpRowStep env permResp batch_size transform st row =
      .interrupted st' pie) :
    (∃ newOps, st'.ops = st.ops ++ newOps ∧
      ∀ op ∈ newOps, ∃ tb rs oc ct rc,
        op = RepoOp.insertBatchOp tb rs oc ct rc) ∧
    st'.batch_uuids = st.batch_uuids := by
  unfold tmpRowStep at hres
  rw [if_pos (fun hc => herr (List.isEmpty_iff.mp hc))] at hres
  cases hf : flushState env permResp st with
  | none =>
      rw [hf] at hres
      exact absurd hres (by simp)
  | some stf =>
      rw [hf] at hres
      injection hres with h1 h2
      subst h1
      unfold flushState at hf
      cases hfl : flush env permResp st.existing_permanent st.last_change
          st.pending_permanent st.pending_changeable with
      | none =>
          rw [hfl] at hf
          exact absurd hf (by simp)
      | some r =>
          rw [hfl] at hf
          injection hf with hf2
          subst hf2
          exact ⟨⟨r.2.2, rfl, flush_ops env permResp _ _ _ _ r hfl⟩, rfl⟩

/-- Witness for C1 (amended) at a concrete failing row. -/
theorem claim_C1_amended_witness :
    (∃ newOps, (⟨0, [], [], [], [], [], []⟩ : DayState).ops =
        (⟨0, [], [], [], [], [], []⟩ : DayState).ops ++ newOps ∧
      ∀ op ∈ newOps, ∃ tb rs oc ct rc,
        op = RepoOp.insertBatchOp tb rs oc ct rc) ∧
    (⟨0, [], [], [], [], [], []⟩ : DayState).batch_uuids =
      (⟨0, [], [], [], [], [], []⟩ : DayState).batch_uuids :=
  claim_C1_amended stubEnv noResp 1000
    (fun _ => (none, none, [⟨"k", vNone, "r"⟩]))
    ⟨0, [], [], [], [], [], []⟩ [] (by simp)
    ⟨0, [], [], [], [], [], []⟩
    ⟨"Ошибка трансформации для записи None: Ошибка трансформации: 'k' = None (r)",
     none, none, none⟩ rfl

/-- C1 counterexample: a staging run whose second row fails transformation
flushes the first row's changeable insert and interrupts — but its full
operation trace contains no `update_migrated_batch` call, so the collected
`batch_uuids` are NOT committed as migrated by the interrupted run. -/
theorem claim_C1_counterexample :
    (process_source_tmp stubEnv noResp 1000 cexTransform [] [] [[rowA, rowB]]).1 =
      .httpOk [("status", vStr "interrupted"), ("processed", vInt 1),
               ("errors", vInt 1),
               ("error_message",
                 vStr "Ошибка трансформации для записи ub: Ошибка трансформации: 'k' = x (r)")] ∧
    (process_source_tmp stubEnv noResp 1000 cexTransform [] [] [[rowA, rowB]]).2 =
      [RepoOp.insertBatchOp "changeable_user_properties" [sampleChg.model_dump]
        none none (some "uuid")] ∧
    ∀ us mg, RepoOp.updateMigratedOp us mg ∉
      (process_source_tmp stubEnv noResp 1000 cexTransform [] [] [[rowA, rowB]]).2 := by
  refine ⟨rfl, rfl, ?_⟩
  intro us mg hmem
  rw [show (process_source_tmp stubEnv noResp 1000 cexTransform [] []
      [[rowA, rowB]]).2 =
    [RepoOp.insertBatchOp "changeable_user_properties" [sampleChg.model_dump]
      none none (some "uuid")] from rfl] at hmem
  simp at hmem

end DwhHelper
